import Mathlib

/-!
Verification of the device-library catalog: a shallow embedding of the
YAML import/export codec (`src/library/importers.py`, `src/library/exporters.py`),
the technology-config serializer (`src/library/api/serializers.py`), the
sync/manifest API ETag logic (`src/library/api/viewsets.py`) and the
`LibraryVersion.save` side effect (`src/library/models.py`), together with
theorems settling the specification claims about them.

Modelling conventions:
* Database rows are plain structures; one-to-one related configs are `Option`
  fields of the owning `DeviceRow`; the `RegisterDefinition` rows of a
  `ModbusConfig` are a nested list kept in insertion order (SQL `ORDER BY
  address`, declared in `RegisterDefinition.Meta.ordering`, is applied by
  `queryRegisters` below).
* YAML/JSON documents are structures whose every key is an `Option` field:
  `none` models an absent key.  A key present with YAML `null` behaves, at
  every site that reads it (`dict.get` with a default, `or ""`), exactly like
  an absent key, so `null` is folded into `none`.
* Python floats (`scale`, `offset`) are carried as `Rat`: the code never
  computes with them, it only stores and re-emits them.
* The structurally unvalidated JSON blobs (`data_record_mapping`,
  `capabilities`) are carried as opaque `List String` / association lists:
  both codec directions pass them through verbatim and never inspect them.
-/

/-- First-match update: Django's keyed `update` / `update_or_create` touches
the single row selected by a unique key; on our list-modelled tables this is
"rewrite the first element satisfying the key predicate". -/
def mapFirst (p : α → Bool) (f : α → α) : List α → List α
  | [] => []
  | x :: xs => if p x then f x :: xs else x :: mapFirst p f xs

/-- A `RegisterDefinition` row (`library/models.py`): field_name, field_unit,
address, data_type, scale, offset. -/
structure RegisterRow where
  field_name : String
  field_unit : String
  address : Int
  data_type : String
  scale : Rat
  offset : Rat
deriving DecidableEq, Repr

/-- A `ModbusConfig` row together with its owned `RegisterDefinition` rows
(in insertion order). -/
structure ModbusRow where
  function : String
  byte_order : String
  word_order : String
  registers : List RegisterRow
deriving DecidableEq, Repr

/-- A `LoRaWANConfig` row. -/
structure LoRaWANRow where
  device_class : String
  downlink_f_port : Option Int
deriving DecidableEq, Repr

/-- A `WMBusConfig` row. -/
structure WMBusRow where
  manufacturer_code : String
  wmbus_device_type : Option Int
  data_record_mapping : List String
  encryption_required : Bool
  shared_encryption_key : String
deriving DecidableEq, Repr

/-- A `ControlConfig` row. -/
structure ControlRow where
  controllable : Bool
  capabilities : List (String × String)
deriving DecidableEq, Repr

/-- A `ProcessorConfig` row. -/
structure ProcessorRow where
  decoder_type : String
deriving DecidableEq, Repr

/-- A `DeviceType` row with its optional one-to-one config rows. -/
structure DeviceRow where
  model_number : String
  name : String
  device_type : String
  technology : String
  description : String
  modbus_config : Option ModbusRow
  lorawan_config : Option LoRaWANRow
  wmbus_config : Option WMBusRow
  control_config : Option ControlRow
  processor_config : Option ProcessorRow
deriving DecidableEq, Repr

/-- A `Vendor` row owning its `DeviceType` rows (insertion order; the
model-declared SQL ordering by vendor name / model_number is how the fixtures
below are laid out, matching what `.all()` yields). -/
structure VendorRow where
  name : String
  slug : String
  devices : List DeviceRow
deriving DecidableEq, Repr

/-- The catalog database state relevant to the codec: all vendors with their
devices and configs. -/
abbrev Catalog := List VendorRow

/-- `RegisterDefinition.Meta.ordering = ["address"]`: any queryset over the
registers yields them sorted by ascending address. -/
def queryRegisters (regs : List RegisterRow) : List RegisterRow :=
  regs.insertionSort (fun a b => a.address ≤ b.address)

/-- `django.utils.text.slugify` (ASCII mode): lowercase, drop characters that
are not alphanumeric, underscore, hyphen or whitespace, then collapse runs of
hyphens/whitespace into single hyphens and strip leading/trailing `-`/`_`. -/
def slugify (s : String) : String :=
  let lowered := (s.toList.map Char.toLower).filter
    (fun c => c.isAlphanum || c = '_' || c = '-' || c = ' ' || c = '\t' || c = '\n')
  let rec collapse : List Char → List Char
    | [] => []
    | c :: cs =>
      if c = '-' || c = ' ' || c = '\t' || c = '\n' then
        match collapse cs with
        | [] => ['-']
        | d :: ds => if d = '-' then d :: ds else '-' :: d :: ds
      else c :: collapse cs
  let collapsed := collapse lowered
  let strip := fun (l : List Char) => l.dropWhile (fun c => c = '-' || c = '_')
  String.mk (((strip collapsed.reverse).reverse |> strip))

/-- The nested `field: {name, unit}` object of a register document. -/
structure FieldDoc where
  name : Option String := none
  unit : Option String := none
deriving DecidableEq, Repr

/-- One entry of a `register_definitions` YAML/JSON list. -/
structure RegisterDoc where
  field : Option FieldDoc := none
  scale : Option Rat := none
  offset : Option Rat := none
  address : Option Int := none
  data_type : Option String := none
deriving DecidableEq, Repr

/-- The `technology_config` document: a dict whose possible keys are the union
of the three technologies' keys; `none` = key absent. -/
structure TechConfigDoc where
  technology : Option String := none
  function : Option String := none
  byte_order : Option String := none
  word_order : Option String := none
  register_definitions : Option (List RegisterDoc) := none
  device_class : Option String := none
  downlink_f_port : Option Int := none
  manufacturer_code : Option String := none
  wmbus_device_type : Option Int := none
  data_record_mapping : Option (List String) := none
  encryption_required : Option Bool := none
  shared_encryption_key : Option String := none
deriving DecidableEq, Repr

/-- The `control_config` document. -/
structure ControlDoc where
  controllable : Option Bool := none
  capabilities : Option (List (String × String)) := none
deriving DecidableEq, Repr

/-- The `processor_config` document. -/
structure ProcessorDoc where
  decoder_type : Option String := none
deriving DecidableEq, Repr

/-- One element of a vendor file's `device_types` list. -/
structure DeviceDoc where
  vendor_name : Option String := none
  model_number : Option String := none
  name : Option String := none
  device_type : Option String := none
  description : Option String := none
  technology_config : Option TechConfigDoc := none
  control_config : Option ControlDoc := none
  processor_config : Option ProcessorDoc := none
deriving DecidableEq, Repr

/-- A per-vendor YAML file; `device_types := none` also stands for an empty or
key-less file (`if not data or "device_types" not in data`). -/
structure FileDoc where
  device_types : Option (List DeviceDoc) := none
deriving DecidableEq, Repr

/-- One `{name, file}` entry of the manifest's `vendors` list.  Export always
writes both keys, so they are total here. -/
structure ManifestEntry where
  name : String
  file : String
deriving DecidableEq, Repr

/-- The manifest document. -/
structure ManifestDoc where
  version : String
  schema_version : Int
  vendors : List ManifestEntry
deriving DecidableEq, Repr

/-- The `LibraryVersion` row flagged `is_current`, as consumed by the exporter
and the API (only these two fields are read). -/
structure VersionInfo where
  version : String
  schema_version : Int
deriving DecidableEq, Repr

/-- `_export_tech_config` (exporters.py): three-way dispatch on
`device.technology`; each scalar emitted only when the guard in the source
holds, `register_definitions` emitted only when non-empty, and a missing
related config row projects to the bare `{technology}` document. -/
def exportTechConfig (device : DeviceRow) : TechConfigDoc :=
  let config : TechConfigDoc := { technology := some device.technology }
  if device.technology = "modbus" then
    match device.modbus_config with
    | none => config
    | some modbus =>
      let config := if modbus.function ≠ "" then { config with function := some modbus.function } else config
      let config := if modbus.byte_order ≠ "" then { config with byte_order := some modbus.byte_order } else config
      let config := if modbus.word_order ≠ "" then { config with word_order := some modbus.word_order } else config
      let registers := (queryRegisters modbus.registers).map (fun reg =>
        { field := some { name := some reg.field_name, unit := some reg.field_unit }
          scale := some reg.scale
          offset := some reg.offset
          address := some reg.address
          data_type := some reg.data_type : RegisterDoc })
      if registers ≠ [] then { config with register_definitions := some registers } else config
  else if device.technology = "lorawan" then
    match device.lorawan_config with
    | none => config
    | some lorawan =>
      let config := if lorawan.device_class ≠ "" then { config with device_class := some lorawan.device_class } else config
      if lorawan.downlink_f_port.isSome then { config with downlink_f_port := lorawan.downlink_f_port } else config
  else if device.technology = "wmbus" then
    match device.wmbus_config with
    | none => config
    | some wmbus =>
      let config := { config with
        manufacturer_code := some wmbus.manufacturer_code
        wmbus_device_type := wmbus.wmbus_device_type
        data_record_mapping := some wmbus.data_record_mapping
        encryption_required := some wmbus.encryption_required }
      if wmbus.shared_encryption_key ≠ "" then { config with shared_encryption_key := some wmbus.shared_encryption_key } else config
  else config

/-- `_export_control_config` (exporters.py): `{}` when no row exists. -/
def exportControlConfig (device : DeviceRow) : ControlDoc :=
  match device.control_config with
  | some ctrl => { capabilities := some ctrl.capabilities, controllable := some ctrl.controllable }
  | none => {}

/-- `_export_processor_config` (exporters.py): `{}` when no row exists or
`decoder_type` is empty. -/
def exportProcessorConfig (device : DeviceRow) : ProcessorDoc :=
  match device.processor_config with
  | some proc => if proc.decoder_type ≠ "" then { decoder_type := some proc.decoder_type } else {}
  | none => {}

/-- `_export_device` (exporters.py): the fixed-key device document. -/
def exportDevice (vendorName : String) (device : DeviceRow) : DeviceDoc :=
  { vendor_name := some vendorName
    model_number := some device.model_number
    name := some device.name
    device_type := some device.device_type
    description := some device.description
    technology_config := some (exportTechConfig device)
    control_config := some (exportControlConfig device)
    processor_config := some (exportProcessorConfig device) }

/-- The per-vendor loop of `export_to_yaml` (exporters.py): vendors with zero
devices are skipped entirely; otherwise a `<slug>.yaml` file and a manifest
`{name, file}` entry are emitted, and the two counters advance.  Returns
(files, manifest entries, vendors_exported, devices_exported). -/
def exportVendors : Catalog → List (String × FileDoc) × List ManifestEntry × Nat × Nat
  | [] => ([], [], 0, 0)
  | v :: vs =>
    if v.devices.isEmpty then exportVendors vs
    else
      let filename := v.slug ++ ".yaml"
      let rest := exportVendors vs
      ((filename, { device_types := some (v.devices.map (exportDevice v.name)) }) :: rest.1,
       { name := v.name, file := filename } :: rest.2.1,
       rest.2.2.1 + 1,
       rest.2.2.2 + v.devices.length)

/-- The result of `export_to_yaml`: the per-vendor files, the manifest, and
the statistics dict. -/
structure ExportOut where
  files : List (String × FileDoc)
  manifest : ManifestDoc
  vendors_exported : Nat
  devices_exported : Nat
deriving DecidableEq, Repr

/-- `export_to_yaml` (exporters.py): exports every vendor that owns devices,
then writes the manifest using the `is_current` `LibraryVersion` (defaults
`"0.0.0"` / `2` when none exists). -/
def exportToYaml (current : Option VersionInfo) (c : Catalog) : ExportOut :=
  let (files, entries, nv, nd) := exportVendors c
  { files := files
    manifest :=
      { version := (current.map (fun v => v.version)).getD "0.0.0"
        schema_version := (current.map (fun v => v.schema_version)).getD 2
        vendors := entries }
    vendors_exported := nv
    devices_exported := nd }

/-- `DeviceTechnologyConfigSerializer.to_representation` (api/serializers.py):
the sync API's projection of a device's technology config.  Registers go
through `RegisterDefinitionSerializer` over `register_definitions.all()`
(model-ordered by address). -/
def serializerTechConfig (device : DeviceRow) : TechConfigDoc :=
  let data : TechConfigDoc := { technology := some device.technology }
  if device.technology = "modbus" then
    match device.modbus_config with
    | none => data
    | some modbus =>
      let data := if modbus.function ≠ "" then { data with function := some modbus.function } else data
      let data := if modbus.byte_order ≠ "" then { data with byte_order := some modbus.byte_order } else data
      let data := if modbus.word_order ≠ "" then { data with word_order := some modbus.word_order } else data
      let regs := (queryRegisters modbus.registers).map (fun reg =>
        { field := some { name := some reg.field_name, unit := some reg.field_unit }
          scale := some reg.scale
          offset := some reg.offset
          address := some reg.address
          data_type := some reg.data_type : RegisterDoc })
      if regs ≠ [] then { data with register_definitions := some regs } else data
  else if device.technology = "lorawan" then
    match device.lorawan_config with
    | none => data
    | some lorawan =>
      let data := if lorawan.device_class ≠ "" then { data with device_class := some lorawan.device_class } else data
      if lorawan.downlink_f_port.isSome then { data with downlink_f_port := lorawan.downlink_f_port } else data
  else if device.technology = "wmbus" then
    match device.wmbus_config with
    | none => data
    | some wmbus =>
      let data := { data with
        manufacturer_code := some wmbus.manufacturer_code
        wmbus_device_type := wmbus.wmbus_device_type
        data_record_mapping := some wmbus.data_record_mapping
        encryption_required := some wmbus.encryption_required }
      if wmbus.shared_encryption_key ≠ "" then { data with shared_encryption_key := some wmbus.shared_encryption_key } else data
  else data

/-- The scalar `defaults` of the `DeviceType.objects.update_or_create` call
in `_import_device`. -/
structure DeviceScalars where
  name : String
  device_type : String
  technology : String
  description : String
deriving DecidableEq, Repr

/-- The import statistics dict built by `import_from_yaml`. -/
structure Stats where
  vendors_created : Nat := 0
  vendors_updated : Nat := 0
  devices_created : Nat := 0
  devices_updated : Nat := 0
  errors : List String := []
deriving DecidableEq, Repr

/-- Append one message to the `errors` list of the stats dict. -/
def addError (s : Stats) (msg : String) : Stats :=
  { s with errors := s.errors ++ [msg] }

/-- Look a vendor up by slug (`Vendor.objects.get(...)` against the unique
slug column). -/
def findVendor (c : Catalog) (slug : String) : Option VendorRow :=
  c.find? (fun v => v.slug == slug)

/-- Look a device up by its `(vendor, model_number)` natural key. -/
def findDevice (c : Catalog) (slug model : String) : Option DeviceRow :=
  (findVendor c slug).bind (fun v => v.devices.find? (fun d => d.model_number == model))

/-- Rewrite the device at key `(slug, model)` in place. -/
def modifyDevice (slug model : String) (f : DeviceRow → DeviceRow) (c : Catalog) : Catalog :=
  mapFirst (fun v => v.slug == slug)
    (fun v => { v with devices := mapFirst (fun d => d.model_number == model) f v.devices }) c

/-- `Vendor.objects.get_or_create(slug=slugify(vendor_name),
defaults={"name": vendor_name})`: returns the updated table and whether a row
was created. -/
def getOrCreateVendor (slug name : String) (c : Catalog) : Catalog × Bool :=
  if c.any (fun v => v.slug == slug) then (c, false)
  else (c ++ [{ name := name, slug := slug, devices := [] }], true)

/-- `DeviceType.objects.update_or_create(vendor=..., model_number=...,
defaults=...)`: overwrite the scalar fields of the existing row (its config
rows are untouched) or append a fresh row with no config rows. -/
def updateOrCreateDevice (slug model : String) (sc : DeviceScalars) (c : Catalog) :
    Catalog × Bool :=
  if (findDevice c slug model).isSome then
    (modifyDevice slug model (fun d =>
      { d with name := sc.name, device_type := sc.device_type,
               technology := sc.technology, description := sc.description }) c, false)
  else
    (mapFirst (fun v => v.slug == slug)
      (fun v => { v with devices := v.devices ++
        [{ model_number := model, name := sc.name, device_type := sc.device_type,
           technology := sc.technology, description := sc.description,
           modbus_config := none, lorawan_config := none, wmbus_config := none,
           control_config := none, processor_config := none }] }) c, true)

/-- The `RegisterDefinition.objects.create` call of `_import_modbus_config`:
one register row built from one `register_definitions` entry. -/
def importedRegister (reg : RegisterDoc) : RegisterRow :=
  let field := reg.field.getD ({} : FieldDoc)
  { field_name := field.name.getD ""
    field_unit := field.unit.getD ""
    address := reg.address.getD 0
    data_type := reg.data_type.getD "uint16"
    scale := reg.scale.getD 1
    offset := reg.offset.getD 0 }

/-- `_import_modbus_config` as a row transform: `update_or_create` rewrites
the three scalar columns of the (possibly fresh) `ModbusConfig` row, then all
its `RegisterDefinition` rows are deleted and re-created from
`register_definitions` in file order. -/
def importModbusRow (tech : TechConfigDoc) (d : DeviceRow) : DeviceRow :=
  { d with modbus_config := some (
    { function := tech.function.getD ""
      byte_order := tech.byte_order.getD ""
      word_order := tech.word_order.getD ""
      registers := (tech.register_definitions.getD []).map importedRegister } : ModbusRow) }

/-- `_import_lorawan_config` as a row transform. -/
def importLorawanRow (tech : TechConfigDoc) (d : DeviceRow) : DeviceRow :=
  { d with lorawan_config := some (
    { device_class := tech.device_class.getD ""
      downlink_f_port := tech.downlink_f_port } : LoRaWANRow) }

/-- `_import_wmbus_config` as a row transform. -/
def importWmbusRow (tech : TechConfigDoc) (d : DeviceRow) : DeviceRow :=
  { d with wmbus_config := some (
    { manufacturer_code := tech.manufacturer_code.getD ""
      wmbus_device_type := tech.wmbus_device_type
      data_record_mapping := tech.data_record_mapping.getD []
      encryption_required := tech.encryption_required.getD false
      shared_encryption_key := tech.shared_encryption_key.getD "" } : WMBusRow) }

/-- The truthiness test
`control_data and (control_data.get("controllable") or control_data.get("capabilities"))`
of `_import_device` (an absent key yields `None`, falsy; `False` and an empty
dict are falsy). -/
def controlMeaningful (cd : ControlDoc) : Bool :=
  cd.controllable.getD false || !(cd.capabilities.getD []).isEmpty

/-- The `ControlConfig.objects.update_or_create` row transform. -/
def importControlRow (cd : ControlDoc) (d : DeviceRow) : DeviceRow :=
  { d with control_config := some (
    { controllable := cd.controllable.getD false
      capabilities := cd.capabilities.getD [] } : ControlRow) }

/-- The truthiness test `processor_data and processor_data.get("decoder_type")`
of `_import_device` (a non-empty string is truthy). -/
def processorMeaningful (pd : ProcessorDoc) : Bool :=
  !(pd.decoder_type.getD "").isEmpty

/-- The `ProcessorConfig.objects.update_or_create` row transform. -/
def importProcessorRow (pd : ProcessorDoc) (d : DeviceRow) : DeviceRow :=
  { d with processor_config := some { decoder_type := pd.decoder_type.getD "" } }

/-- The scalar-overwrite step of `DeviceType.objects.update_or_create` on an
existing row, as a row transform. -/
def appliedScalars (doc : DeviceDoc) (d : DeviceRow) : DeviceRow :=
  { d with
    name := doc.name.getD ""
    device_type := doc.device_type.getD ""
    technology := (doc.technology_config.getD ({} : TechConfigDoc)).technology.getD ""
    description := doc.description.getD "" }

/-- A freshly created `DeviceType` row: the natural key plus the scalar
defaults, with no related config rows. -/
def createdRow (doc : DeviceDoc) (model : String) : DeviceRow :=
  { model_number := model
    name := doc.name.getD ""
    device_type := doc.device_type.getD ""
    technology := (doc.technology_config.getD ({} : TechConfigDoc)).technology.getD ""
    description := doc.description.getD ""
    modbus_config := none, lorawan_config := none, wmbus_config := none
    control_config := none, processor_config := none }

/-- The config-import tail of `_import_device` as one row transform: the
three-way technology dispatch followed by the two guarded
control/processor upserts. -/
def appliedTrans (doc : DeviceDoc) (d : DeviceRow) : DeviceRow :=
  let tech := doc.technology_config.getD ({} : TechConfigDoc)
  let technology := tech.technology.getD ""
  let d := if technology = "modbus" then importModbusRow tech d
           else if technology = "lorawan" then importLorawanRow tech d
           else if technology = "wmbus" then importWmbusRow tech d
           else d
  let control_data := doc.control_config.getD ({} : ControlDoc)
  let d := if controlMeaningful control_data then importControlRow control_data d else d
  let processor_data := doc.processor_config.getD ({} : ProcessorDoc)
  if processorMeaningful processor_data then importProcessorRow processor_data d else d

/-- The whole effect of `_import_device` on the device row at key
`(vendor, model)`: overwrite scalars (or create the row), then run the config
imports. -/
def appliedRow (doc : DeviceDoc) (model : String) (old : Option DeviceRow) : DeviceRow :=
  appliedTrans doc (match old with
    | some d => appliedScalars doc d
    | none => createdRow doc model)

/-- `_import_device` (importers.py), acting on the catalog and the stats.
Reading `data["model_number"]` is the one fallible step modelled (a `KeyError`
whose `str` is `'model_number'`); it happens before any write, so the error
case leaves both the catalog and the stats untouched.  The vendor the caller
resolved is designated by its unique slug; the whole config-import tail acts
on the single row at `(vendor, model)`, as `appliedTrans` (above). -/
def importDevice (slug : String) (data : DeviceDoc) (st : Catalog × Stats) :
    Except String (Catalog × Stats) :=
  let tech := data.technology_config.getD ({} : TechConfigDoc)
  let technology := tech.technology.getD ""
  match data.model_number with
  | none => .error "'model_number'"
  | some model =>
    let (c, created) := updateOrCreateDevice slug model
      { name := data.name.getD ""
        device_type := data.device_type.getD ""
        technology := technology
        description := data.description.getD "" } st.1
    let stats := if created then { st.2 with devices_created := st.2.devices_created + 1 }
                 else { st.2 with devices_updated := st.2.devices_updated + 1 }
    .ok (modifyDevice slug model (appliedTrans data) c, stats)

/-- The `try/except` around `_import_device` in the per-device loop of
`import_from_yaml`: a failure is recorded as
`Error importing {model_number or ?} from {vendor_name}: {e}` and the loop
moves on. -/
def importDeviceChecked (slug vendorName : String) (data : DeviceDoc)
    (st : Catalog × Stats) : Catalog × Stats :=
  match importDevice slug data st with
  | .ok st' => st'
  | .error e =>
    let m := data.model_number.getD "?"
    (st.1, addError st.2 s!"Error importing {m} from {vendorName}: {e}")

/-- The filesystem an import run reads: the manifest file (`none` = missing),
the devices directory (`none` = missing) holding the per-vendor files keyed by
filename, and the two path strings used in error messages. -/
structure ImportFS where
  manifestPath : String
  devicesPath : String
  manifest : Option ManifestDoc
  files : Option (List (String × FileDoc))
deriving Repr

/-- The body of the `for vendor_entry in manifest.get("vendors", [])` loop of
`import_from_yaml`: check the vendor file exists (else record an error and
continue), `get_or_create` the vendor keyed by `slugify(name)`, bump the
vendor counters, then run every device entry of the file through the guarded
device import. -/
def processVendorEntry (devicesPath : String) (files : List (String × FileDoc))
    (entry : ManifestEntry) (st : Catalog × Stats) : Catalog × Stats :=
  let f := entry.file
  let p := devicesPath
  match (files.find? (fun kv => kv.1 == entry.file)).map (fun kv => kv.2) with
  | none => (st.1, addError st.2 s!"File not found: {p}/{f}")
  | some data =>
    let (c, created) := getOrCreateVendor (slugify entry.name) entry.name st.1
    let stats := if created then { st.2 with vendors_created := st.2.vendors_created + 1 }
                 else { st.2 with vendors_updated := st.2.vendors_updated + 1 }
    match data.device_types with
    | none => (c, stats)
    | some docs =>
      docs.foldl (fun st doc => importDeviceChecked (slugify entry.name) entry.name doc st) (c, stats)

/-- `import_from_yaml` (importers.py).  The two existence preconditions are
checked before anything else; a missing manifest or devices directory raises
`FileNotFoundError` (the `.error` branch) with the catalog untouched.  With
both present, `clear` first deletes every `DeviceType` and `Vendor` row
(cascading to all configs — the whole catalog state here), then the manifest's
vendor entries are processed in order and the stats dict is returned. -/
def importFromYaml (fs : ImportFS) (clear : Bool) (c : Catalog) :
    Catalog × Except String Stats :=
  match fs.manifest with
  | none =>
    let p := fs.manifestPath
    (c, .error s!"Manifest file not found: {p}")
  | some manifest =>
    match fs.files with
    | none =>
      let p := fs.devicesPath
      (c, .error s!"Devices directory not found: {p}")
    | some files =>
      let c := if clear then [] else c
      let (c, stats) := manifest.vendors.foldl
        (fun st e => processVendorEntry fs.devicesPath files e st) (c, ({} : Stats))
      (c, .ok stats)

/-- A `DeviceType` row together with its `modified` timestamp (the
`TimeStampedModel` auto-now column), as seen by the sync API.  Saving a
related config row touches only that row's own `modified` column, never the
device's, so the two are independent here. -/
structure ApiDevice where
  row : DeviceRow
  modified : Nat
deriving DecidableEq, Repr

/-- A vendor as seen by the sync API. -/
structure ApiVendor where
  name : String
  slug : String
  devices : List ApiDevice
deriving DecidableEq, Repr

/-- The database state the sync API reads: the `is_current` `LibraryVersion`
(if any) and the vendors with their devices. -/
structure ApiState where
  current : Option VersionInfo
  vendors : List ApiVendor
deriving DecidableEq, Repr

/-- The payload dict of `ManifestViewSet.list`. -/
structure ManifestPayload where
  version : String
  schema_version : Int
  vendor_count : Nat
  device_count : Nat
deriving DecidableEq, Repr

/-- `ManifestViewSet.list`'s `data` dict. -/
def manifestPayload (st : ApiState) : ManifestPayload :=
  { version := (st.current.map (fun v => v.version)).getD "0.0.0"
    schema_version := (st.current.map (fun v => v.schema_version)).getD 2
    vendor_count := st.vendors.length
    device_count := (st.vendors.map (fun v => v.devices.length)).sum }

/-- Python's `str(data)` on the manifest payload dict — the exact string fed
to `hashlib.md5` in `ManifestViewSet.list`. -/
def manifestEtagInput (st : ApiState) : String :=
  let p := manifestPayload st
  let v := p.version
  let sv := p.schema_version
  let vc := p.vendor_count
  let dc := p.device_count
  s!"\x7b'version': '{v}', 'schema_version': {sv}, 'vendor_count': {vc}, 'device_count': {dc}\x7d"

/-- An HTTP response of the two API views: either the bare
`HTTP 304 Not Modified` (an empty body) or a body with an optional ETag
header. -/
inductive ApiResponse (α : Type) where
  | notModified
  | ok (body : α) (etag : Option String)
deriving DecidableEq, Repr

/-- Quote an ETag value the way the views do (`f'"{etag}"'`). -/
def quoteEtag (etag : String) : String := "\"" ++ etag ++ "\""

/-- `ManifestViewSet.list` (api/viewsets.py): build the payload, hash its
`str` (`hash` stands for the fixed function `md5(...).hexdigest()`), and
answer 304 when `If-None-Match` carries exactly the quoted current ETag. -/
def manifestList (hash : String → String) (st : ApiState) (ifNoneMatch : String) :
    ApiResponse ManifestPayload :=
  let etag := hash (manifestEtagInput st)
  if ifNoneMatch = quoteEtag etag then .notModified
  else .ok (manifestPayload st) (some etag)

/-- The `DeviceTypeDetailSerializer` projection of one device (its `id` UUID
column is left out of the model). -/
structure DetailDoc where
  vendor_name : String
  model_number : String
  name : String
  device_type : String
  description : String
  technology_config : TechConfigDoc
  control_config : Option ControlRow
  processor_config : Option ProcessorRow
deriving DecidableEq, Repr

/-- `DeviceTypeDetailSerializer` applied to a device of the named vendor;
`control_config`/`processor_config` serialize to `{}` (here `none`) when the
row does not exist. -/
def detailDoc (vendorName : String) (d : DeviceRow) : DetailDoc :=
  { vendor_name := vendorName
    model_number := d.model_number
    name := d.name
    device_type := d.device_type
    description := d.description
    technology_config := serializerTechConfig d
    control_config := d.control_config
    processor_config := d.processor_config }

/-- One element of the full-sync payload's `vendors` list
(`VendorWithDevicesSerializer`). -/
structure SyncVendorDoc where
  name : String
  slug : String
  device_types : List DetailDoc
deriving DecidableEq, Repr

/-- The full-sync payload of `SyncViewSet.list`. -/
structure SyncPayload where
  version : String
  schema_version : Int
  vendors : List SyncVendorDoc
deriving DecidableEq, Repr

/-- `DeviceType.objects.aggregate(last=Max("modified"))`: the maximum
`modified` timestamp over every device row, `none` when there are none. -/
def lastModified (st : ApiState) : Option Nat :=
  ((st.vendors.map (fun v => v.devices.map (fun d => d.modified))).flatten).max?

/-- The body `SyncViewSet.list` builds. -/
def syncBody (st : ApiState) : SyncPayload :=
  { version := (st.current.map (fun v => v.version)).getD "0.0.0"
    schema_version := (st.current.map (fun v => v.schema_version)).getD 2
    vendors := st.vendors.map (fun v =>
      { name := v.name, slug := v.slug,
        device_types := v.devices.map (fun d => detailDoc v.name d.row) }) }

/-- The string fed to `hashlib.md5` for the sync ETag —
`str(last_modified)` — when any device exists. -/
def syncEtagInput (st : ApiState) : Option String :=
  (lastModified st).map (fun lm => toString lm)

/-- `SyncViewSet.list` (api/viewsets.py): when some device exists, hash the
maximum `modified` timestamp and answer 304 on an exact quoted match;
otherwise, or on a miss, return the whole catalog (the ETag header is set only
when `last_modified` is truthy). -/
def syncList (hash : String → String) (st : ApiState) (ifNoneMatch : String) :
    ApiResponse SyncPayload :=
  match lastModified st with
  | some lm =>
    let etag := hash (toString lm)
    if ifNoneMatch = quoteEtag etag then .notModified
    else .ok (syncBody st) (some etag)
  | none => .ok (syncBody st) none

/-- A `LibraryVersion` row, reduced to the columns `save` interacts with: the
primary key and the `is_current` flag. -/
structure LibraryVersionRow where
  pk : Nat
  is_current : Bool
deriving DecidableEq, Repr

/-- The guarded sweep of `LibraryVersion.save`: when the instance is flagged
current,
`LibraryVersion.objects.filter(is_current=True).exclude(pk=self.pk).update(is_current=False)`
clears the flag on every other row. -/
def lvSweep (v : LibraryVersionRow) (rows : List LibraryVersionRow) : List LibraryVersionRow :=
  if v.is_current then
    rows.map (fun r => if r.is_current && r.pk != v.pk then { r with is_current := false } else r)
  else rows

/-- `super().save()`: rewrite the row carrying this pk, or insert a new one. -/
def lvUpsert (rows : List LibraryVersionRow) (v : LibraryVersionRow) : List LibraryVersionRow :=
  if rows.any (fun r => r.pk == v.pk) then mapFirst (fun r => r.pk == v.pk) (fun _ => v) rows
  else rows ++ [v]

/-- `LibraryVersion.save` (models.py): the conditional sweep followed by the
actual save. -/
def lvSave (rows : List LibraryVersionRow) (v : LibraryVersionRow) : List LibraryVersionRow :=
  lvUpsert (lvSweep v rows) v

/-- How many rows are flagged current. -/
def countCurrent (rows : List LibraryVersionRow) : Nat :=
  rows.countP (fun r => r.is_current)

/-- A concrete register row used by witnesses. -/
def sampleOldRegister : RegisterRow :=
  { field_name := "old", field_unit := "", address := 99
    data_type := "uint16", scale := 1, offset := 0 }

/-- A concrete modbus device row used by witnesses. -/
def sampleOldDevice : DeviceRow :=
  { model_number := "EM-1", name := "Old", device_type := "power_meter"
    technology := "modbus", description := ""
    modbus_config := some (
      { function := "", byte_order := "", word_order := ""
        registers := [sampleOldRegister] } : ModbusRow)
    lorawan_config := none, wmbus_config := none
    control_config := none, processor_config := none }

/-- A concrete vendor row used by witnesses. -/
def sampleVendor : VendorRow :=
  { name := "Acme", slug := "acme", devices := [sampleOldDevice] }

/-- A concrete modbus register document used by witnesses. -/
def sampleRegisterDoc : RegisterDoc :=
  { field := some { name := some "energy", unit := some "kWh" }
    scale := some 1, offset := some 0, address := some 5
    data_type := some "uint16" }

/-- A concrete modbus device document used by witnesses. -/
def sampleModbusDoc : DeviceDoc :=
  { model_number := some "EM-1"
    technology_config := some (
      { technology := some "modbus"
        register_definitions := some [sampleRegisterDoc] } : TechConfigDoc) }

/-- The register ordering used by every registers queryset. -/
instance : IsTotal RegisterRow (fun a b => a.address ≤ b.address) :=
  ⟨fun a b => Int.le_total a.address b.address⟩

instance : IsTrans RegisterRow (fun a b => a.address ≤ b.address) :=
  ⟨fun _ _ _ hab hbc => le_trans hab hbc⟩

/-- A modbus device document whose registers appear at addresses 10 then 5 in
file order, used by witnesses. -/
def sampleUnsortedDoc : DeviceDoc :=
  { model_number := some "EM-2"
    technology_config := some (
      { technology := some "modbus"
        register_definitions := some
          [{ field := some { name := some "a", unit := some "" }
             scale := some 1, offset := some 0, address := some 10
             data_type := some "uint16" },
           { field := some { name := some "b", unit := some "" }
             scale := some 1, offset := some 0, address := some 5
             data_type := some "uint16" }] } : TechConfigDoc) }

/-- A concrete manifest used by witnesses. -/
def sampleManifest : ManifestDoc :=
  { version := "1.0", schema_version := 2
    vendors := [{ name := "Acme", file := "acme.yaml" }] }

/-- A concrete filesystem with a manifest and an empty devices directory,
used by witnesses. -/
def sampleEmptyDirFS : ImportFS :=
  { manifestPath := "/data/manifest.yaml", devicesPath := "/data/devices"
    manifest := some sampleManifest, files := some [] }

/-- All `ModbusConfig` rows of the catalog, keyed by their device. -/
def modbusRows (c : Catalog) : List (String × String × ModbusRow) :=
  c.flatMap (fun v => v.devices.filterMap
    (fun d => d.modbus_config.map (fun m => (v.slug, d.model_number, m))))

/-- All `LoRaWANConfig` rows of the catalog, keyed by their device. -/
def lorawanRows (c : Catalog) : List (String × String × LoRaWANRow) :=
  c.flatMap (fun v => v.devices.filterMap
    (fun d => d.lorawan_config.map (fun m => (v.slug, d.model_number, m))))

/-- All `WMBusConfig` rows of the catalog, keyed by their device. -/
def wmbusRows (c : Catalog) : List (String × String × WMBusRow) :=
  c.flatMap (fun v => v.devices.filterMap
    (fun d => d.wmbus_config.map (fun m => (v.slug, d.model_number, m))))

/-- A device document carrying a technology string outside the three-way
dispatch, used by witnesses. -/
def sampleUnknownDoc : DeviceDoc :=
  { model_number := some "ZB-1"
    name := some "Mesh node"
    technology_config := some ({ technology := some "zigbee" } : TechConfigDoc) }

/-- `sampleOldDevice` with one technology-config value changed (the register
scale), used by the ETag counterexample. -/
def sampleOldDeviceScaled : DeviceRow :=
  { sampleOldDevice with
    modbus_config := some (
      { function := "", byte_order := "", word_order := ""
        registers := [{ sampleOldRegister with scale := 2 }] } : ModbusRow) }

/-- An API state with one vendor and one modbus device, used by witnesses. -/
def sampleApiState1 : ApiState :=
  { current := some { version := "1.0", schema_version := 2 }
    vendors := [{ name := "Acme", slug := "acme"
                  devices := [{ row := sampleOldDevice, modified := 10 }] }] }

/-- `sampleApiState1` after a change confined to the device's
technology config: same `modified` timestamps, same counts, same version. -/
def sampleApiState2 : ApiState :=
  { current := some { version := "1.0", schema_version := 2 }
    vendors := [{ name := "Acme", slug := "acme"
                  devices := [{ row := sampleOldDeviceScaled, modified := 10 }] }] }

/-- The database uniqueness constraints: vendor slugs are unique
(`Vendor.slug` is a unique column) and model numbers are unique per vendor
(`DeviceType.Meta.unique_together`). -/
def wellKeyed (c : Catalog) : Prop :=
  (c.map (fun v => v.slug)).Nodup ∧
  ∀ v ∈ c, (v.devices.map (fun d => d.model_number)).Nodup

instance : DecidablePred wellKeyed := fun c => by
  unfold wellKeyed
  infer_instance

/-- The device documents a manifest entry's vendor file contributes (empty
when the file is missing or carries no `device_types` list). -/
def fileDocs (files : List (String × FileDoc)) (e : ManifestEntry) : List DeviceDoc :=
  ((((files.find? (fun kv => kv.1 == e.file)).map (fun kv => kv.2)).bind
    (fun fd => fd.device_types)).getD [])

/-- The `(vendor slug, model_number)` keys one manifest entry's file
describes. -/
def entryKeys (files : List (String × FileDoc)) (e : ManifestEntry) :
    List (String × String) :=
  (fileDocs files e).filterMap
    (fun doc => doc.model_number.map (fun mdl => (slugify e.name, mdl)))

/-- All `(vendor slug, model_number)` keys a manifest/file pair describes, in
processing order. -/
def importKeys (files : List (String × FileDoc)) (entries : List ManifestEntry) :
    List (String × String) :=
  entries.flatMap (fun e => entryKeys files e)

/-- A manifest/file pair that describes its devices completely: every entry's
file exists with a `device_types` list, and every device document carries a
`model_number`. -/
def importWF (files : List (String × FileDoc)) (entries : List ManifestEntry) : Prop :=
  ∀ e ∈ entries, ∃ docs,
    (files.find? (fun kv => kv.1 == e.file)).map (fun kv => kv.2) =
      some { device_types := some docs } ∧
    ∀ doc ∈ docs, doc.model_number.isSome = true

/-- A concrete devices directory with one vendor file, used by witnesses. -/
def sampleFiles : List (String × FileDoc) :=
  [("acme.yaml", { device_types := some [sampleModbusDoc] })]

/-- A concrete complete filesystem (manifest plus one vendor file), used by
witnesses. -/
def sampleFS : ImportFS :=
  { manifestPath := "/data/manifest.yaml", devicesPath := "/data/devices"
    manifest := some sampleManifest, files := some sampleFiles }

/-- A `ModbusConfig` row viewed as data: its scalar columns and its register
rows as a multiset (the claim's "identical rows" reads the registers as a set
of table rows, not as a stored order). -/
structure ModbusProj where
  function : String
  byte_order : String
  word_order : String
  registers : Multiset RegisterRow
deriving DecidableEq

/-- Project a `ModbusConfig` row to its row content. -/
def modbusProj (m : ModbusRow) : ModbusProj :=
  { function := m.function, byte_order := m.byte_order, word_order := m.word_order
    registers := (m.registers : Multiset RegisterRow) }

/-- Everything claim C1 compares for one device: the `DeviceType` scalar row
(vendor designated by name — primary keys are opaque UUIDs) and the three
technology-config rows. -/
structure DeviceProjection where
  vendor_name : String
  model_number : String
  name : String
  device_type : String
  technology : String
  description : String
  modbus : Option ModbusProj
  lorawan : Option LoRaWANRow
  wmbus : Option WMBusRow
deriving DecidableEq

/-- Project one device row. -/
def deviceProj (vendorName : String) (d : DeviceRow) : DeviceProjection :=
  { vendor_name := vendorName, model_number := d.model_number, name := d.name
    device_type := d.device_type, technology := d.technology, description := d.description
    modbus := d.modbus_config.map modbusProj
    lorawan := d.lorawan_config
    wmbus := d.wmbus_config }

/-- All device projections of a catalog, in catalog order. -/
def catalogProjs (c : Catalog) : List DeviceProjection :=
  c.flatMap (fun v => v.devices.map (fun d => deviceProj v.name d))

/-- A device whose config rows are exactly the one its `technology` selects
(none at all for a technology outside the dispatch). -/
def configsMatch (d : DeviceRow) : Bool :=
  if d.technology = "modbus" then
    d.modbus_config.isSome && d.lorawan_config.isNone && d.wmbus_config.isNone
  else if d.technology = "lorawan" then
    d.modbus_config.isNone && d.lorawan_config.isSome && d.wmbus_config.isNone
  else if d.technology = "wmbus" then
    d.modbus_config.isNone && d.lorawan_config.isNone && d.wmbus_config.isSome
  else
    d.modbus_config.isNone && d.lorawan_config.isNone && d.wmbus_config.isNone

/-- The catalog states for which the export/import round trip reproduces the
rows: database keys are unique (slugs, per-vendor model numbers), vendor
names slugify apart (the importer keys vendors by `slugify(name)`), and each
device carries exactly the config row its technology selects. -/
def roundtripWF (c : Catalog) : Prop :=
  (c.map (fun v => slugify v.name)).Nodup ∧
  (c.map (fun v => v.slug)).Nodup ∧
  (∀ v ∈ c, (v.devices.map (fun d => d.model_number)).Nodup) ∧
  (∀ v ∈ c, ∀ d ∈ v.devices, configsMatch d = true)

instance : DecidablePred roundtripWF := fun c => by
  unfold roundtripWF
  infer_instance

/-- The vendor row import re-creates from one exported vendor. -/
def importedVendor (v : VendorRow) : VendorRow :=
  { name := v.name, slug := slugify v.name
    devices := v.devices.map (fun d => appliedRow (exportDevice v.name d) d.model_number none) }

/-- A device flagged modbus with no `ModbusConfig` row: the round-trip
counterexample. -/
def orphanTechVendor : VendorRow :=
  { name := "Acme", slug := "acme"
    devices := [{ model_number := "X1", name := "Orphan", device_type := "power_meter"
                  technology := "modbus", description := ""
                  modbus_config := none, lorawan_config := none, wmbus_config := none
                  control_config := none, processor_config := none }] }

/-- C3: the sync API's device-detail `technology_config` projection and the
YAML exporter's `technology_config` agree on every device row: same keys
present under the same omit-if-empty guards, same values, and the same bare
`{technology}` projection when the selected technology's config row is
missing. -/
theorem c3_serializer_equals_exporter (device : DeviceRow) :
    serializerTechConfig device = exportTechConfig device := rfl

/-- C5: when the manifest file or the devices directory is missing,
`import_from_yaml` raises the corresponding not-found error and leaves the
catalog exactly as it was — no rows are created, updated or deleted, and in
particular no `clear` deletion has happened. -/
theorem c5_missing_precondition_aborts (fs : ImportFS) (clear : Bool) (c : Catalog) :
    (fs.manifest = none →
      importFromYaml fs clear c =
        (c, .error ("Manifest file not found: " ++ fs.manifestPath))) ∧
    (∀ m, fs.manifest = some m → fs.files = none →
      importFromYaml fs clear c =
        (c, .error ("Devices directory not found: " ++ fs.devicesPath))) := by
  constructor
  · intro h
    simp [importFromYaml, h, toString, String.append_empty]
  · intro m hm hf
    simp [importFromYaml, hm, hf, toString, String.append_empty]

/-- Witness for `c5_missing_precondition_aborts` at concrete filesystems, one
per missing precondition. -/
theorem c5_missing_precondition_aborts_witness :
    importFromYaml
      { manifestPath := "/data/manifest.yaml", devicesPath := "/data/devices",
        manifest := none, files := some [] } true
      [{ name := "Acme", slug := "acme", devices := [] }] =
    ([{ name := "Acme", slug := "acme", devices := [] }],
     .error "Manifest file not found: /data/manifest.yaml") ∧
    importFromYaml
      { manifestPath := "/data/manifest.yaml", devicesPath := "/data/devices",
        manifest := some { version := "1.0", schema_version := 2, vendors := [] },
        files := none } true
      [{ name := "Acme", slug := "acme", devices := [] }] =
    ([{ name := "Acme", slug := "acme", devices := [] }],
     .error "Devices directory not found: /data/devices") := by
  constructor
  · have h := (c5_missing_precondition_aborts
      { manifestPath := "/data/manifest.yaml", devicesPath := "/data/devices",
        manifest := none, files := some [] } true
      [{ name := "Acme", slug := "acme", devices := [] }]).1 rfl
    simpa using h
  · have h := (c5_missing_precondition_aborts
      { manifestPath := "/data/manifest.yaml", devicesPath := "/data/devices",
        manifest := some { version := "1.0", schema_version := 2, vendors := [] },
        files := none } true
      [{ name := "Acme", slug := "acme", devices := [] }]).2
      { version := "1.0", schema_version := 2, vendors := [] } rfl rfl
    simpa using h

/-- Splitting a list at the first match rewritten by `mapFirst`. -/
theorem mapFirst_split (p : α → Bool) (f : α → α) :
    ∀ l : List α, l.any p = true →
      ∃ l1 x l2, l = l1 ++ x :: l2 ∧ p x = true ∧ (∀ y ∈ l1, p y = false) ∧
        mapFirst p f l = l1 ++ f x :: l2 := by
  intro l h
  induction l with
  | nil => simp at h
  | cons a l ih =>
    by_cases ha : p a = true
    · exact ⟨[], a, l, by simp, ha, by simp, by simp [mapFirst, ha]⟩
    · have h' : l.any p = true := by
        simp only [List.any_cons] at h
        rcases Bool.or_eq_true_iff.mp h with h | h
        · exact absurd h ha
        · exact h
      obtain ⟨l1, x, l2, hl, hx, hl1, hm⟩ := ih h'
      refine ⟨a :: l1, x, l2, by simp [hl], hx, ?_, ?_⟩
      · intro y hy
        rcases List.mem_cons.mp hy with rfl | hy
        · exact Bool.eq_false_iff.mpr ha
        · exact hl1 y hy
      · simp [mapFirst, ha, hm]

/-- `mapFirst` is the identity when nothing matches. -/
theorem mapFirst_of_none (p : α → Bool) (f : α → α) :
    ∀ l : List α, (∀ y ∈ l, p y = false) → mapFirst p f l = l := by
  intro l h
  induction l with
  | nil => rfl
  | cons a l ih =>
    have ha := h a (by simp)
    simp [mapFirst, ha, ih (fun y hy => h y (List.mem_cons_of_mem a hy))]

/-- After the `update(is_current=False)` sweep of `lvSave`, any row still
flagged current carries the saved instance's pk. -/
theorem unset_sweep_current (v : LibraryVersionRow) (rows : List LibraryVersionRow) :
    ∀ r ∈ rows.map (fun r => if r.is_current && r.pk != v.pk then { r with is_current := false } else r),
      r.is_current = true → r.pk = v.pk := by
  intro r hr hcur
  obtain ⟨r0, _, hr0⟩ := List.mem_map.mp hr
  by_cases hc : r0.is_current && r0.pk != v.pk
  · rw [if_pos hc] at hr0
    subst hr0
    simp at hcur
  · rw [if_neg hc] at hr0
    subst hr0
    have := Bool.and_eq_false_iff.mp (Bool.eq_false_iff.mpr hc)
    rcases this with h | h
    · rw [hcur] at h
      cases h
    · simpa using h

/-- The sweep never changes the pk column. -/
theorem lvSweep_map_pk (v : LibraryVersionRow) (rows : List LibraryVersionRow) :
    (lvSweep v rows).map (fun r => r.pk) = rows.map (fun r => r.pk) := by
  unfold lvSweep
  by_cases hv : v.is_current
  · rw [if_pos hv, List.map_map]
    apply List.map_congr_left
    intro r _
    simp only [Function.comp_apply]
    split <;> rfl
  · rw [if_neg hv]

/-- `lvSave` keeps the pk column duplicate-free. -/
theorem lvSave_nodup (rows : List LibraryVersionRow) (v : LibraryVersionRow)
    (hnd : (rows.map (fun r => r.pk)).Nodup) :
    ((lvSave rows v).map (fun r => r.pk)).Nodup := by
  unfold lvSave lvUpsert
  have hnd' : ((lvSweep v rows).map (fun r => r.pk)).Nodup := by
    rw [lvSweep_map_pk]; exact hnd
  by_cases hany : (lvSweep v rows).any (fun r => r.pk == v.pk) = true
  · rw [if_pos hany]
    obtain ⟨l1, x, l2, hl, hx, _, hm⟩ :=
      mapFirst_split (fun r => r.pk == v.pk) (fun _ => v) (lvSweep v rows) hany
    have hxpk : x.pk = v.pk := by simpa using hx
    rw [hm]
    have : (l1 ++ v :: l2).map (fun r => r.pk) = (l1 ++ x :: l2).map (fun r => r.pk) := by
      simp [hxpk]
    rw [this, ← hl]
    exact hnd'
  · rw [if_neg hany]
    have hnotmem : v.pk ∉ (lvSweep v rows).map (fun r => r.pk) := by
      intro hmem
      obtain ⟨r, hr, hrpk⟩ := List.mem_map.mp hmem
      exact hany (List.any_eq_true.mpr ⟨r, hr, by simp [hrpk]⟩)
    simpa [List.nodup_append] using And.intro hnd' hnotmem

/-- `lvSave` preserves "at most one row is flagged current". -/
theorem lvSave_at_most_one (rows : List LibraryVersionRow) (v : LibraryVersionRow)
    (hnd : (rows.map (fun r => r.pk)).Nodup) (hc : countCurrent rows ≤ 1) :
    countCurrent (lvSave rows v) ≤ 1 := by
  unfold lvSave lvUpsert
  have hnd' : ((lvSweep v rows).map (fun r => r.pk)).Nodup := by
    rw [lvSweep_map_pk]; exact hnd
  have hcnt_eq : v.is_current = false → lvSweep v rows = rows := by
    intro hv; unfold lvSweep; rw [if_neg (by simp [hv])]
  have hsweep : v.is_current = true → ∀ r ∈ lvSweep v rows, r.is_current = true → r.pk = v.pk := by
    intro hv r hr
    unfold lvSweep at hr
    rw [if_pos hv] at hr
    exact unset_sweep_current v rows r hr
  by_cases hany : (lvSweep v rows).any (fun r => r.pk == v.pk) = true
  · rw [if_pos hany]
    obtain ⟨l1, x, l2, hl, hx, hl1, hm⟩ :=
      mapFirst_split (fun r => r.pk == v.pk) (fun _ => v) (lvSweep v rows) hany
    have hxpk : x.pk = v.pk := by simpa using hx
    rw [hm]
    by_cases hv : v.is_current = true
    · have h1 : (l1.countP (fun r => r.is_current)) = 0 := by
        rw [List.countP_eq_zero]
        intro y hy hcur
        have hmem : y ∈ lvSweep v rows := by rw [hl]; exact List.mem_append_left _ hy
        have := hsweep hv y hmem hcur
        have := hl1 y hy
        simp [‹y.pk = v.pk›] at this
      have h2 : (l2.countP (fun r => r.is_current)) = 0 := by
        rw [List.countP_eq_zero]
        intro y hy hcur
        have hmem : y ∈ lvSweep v rows := by
          rw [hl]; exact List.mem_append_right _ (List.mem_cons_of_mem _ hy)
        have hypk := hsweep hv y hmem hcur
        have hnotin : x.pk ∉ l1.map (fun r => r.pk) ++ l2.map (fun r => r.pk) := by
          have := hnd'
          rw [hl] at this
          simp only [List.map_append, List.map_cons] at this
          exact (List.nodup_cons.mp (List.nodup_middle.mp this)).1
        exact hnotin (List.mem_append_right _
          (List.mem_map.mpr ⟨y, hy, by rw [hypk, hxpk]⟩))
      simp [countCurrent, List.countP_append, List.countP_cons, h1, h2, hv]
    · have hv' : v.is_current = false := by simpa using hv
      have hswe := hcnt_eq hv'
      rw [hswe] at hl hm
      calc countCurrent (l1 ++ v :: l2)
          = countCurrent l1 + countCurrent l2 := by
            simp [countCurrent, List.countP_append, List.countP_cons, hv']
        _ ≤ countCurrent rows := by
            rw [hl]
            by_cases hx2 : x.is_current = true <;>
              simp [countCurrent, List.countP_append, List.countP_cons, hx2]
        _ ≤ 1 := hc
  · rw [if_neg hany]
    by_cases hv : v.is_current = true
    · have h0 : ((lvSweep v rows).countP (fun r => r.is_current)) = 0 := by
        rw [List.countP_eq_zero]
        intro y hy hcur
        have hypk := hsweep hv y hy hcur
        exact hany (List.any_eq_true.mpr ⟨y, hy, by simp [hypk]⟩)
      simp [countCurrent, List.countP_append, List.countP_cons, h0, hv]
    · have hv' : v.is_current = false := by simpa using hv
      have hswe := hcnt_eq hv'
      rw [hswe]
      simpa [countCurrent, List.countP_append, List.countP_cons, hv'] using hc

/-- C4: through the model's `save`, at most one `LibraryVersion` row is
flagged `is_current` after any sequence of creations and saves (starting from
an empty table), and a save whose instance is flagged current leaves the flag
set on no other row: every still-current row of the table after such a save
carries the saved instance's pk. -/
theorem c4_at_most_one_current (ops : List LibraryVersionRow)
    (rows : List LibraryVersionRow) (v : LibraryVersionRow) :
    countCurrent (ops.foldl lvSave []) ≤ 1 ∧
    ((lvSave rows v).all
      (fun r => !(v.is_current && r.is_current) || r.pk == v.pk)) = true := by
  constructor
  · have key : ∀ (l : List LibraryVersionRow) (acc : List LibraryVersionRow),
        ((acc.map (fun r => r.pk)).Nodup) → countCurrent acc ≤ 1 →
        ((l.foldl lvSave acc).map (fun r => r.pk)).Nodup ∧
          countCurrent (l.foldl lvSave acc) ≤ 1 := by
      intro l
      induction l with
      | nil => intro acc h1 h2; exact ⟨h1, h2⟩
      | cons a l ih =>
        intro acc h1 h2
        exact ih (lvSave acc a) (lvSave_nodup acc a h1) (lvSave_at_most_one acc a h1 h2)
    exact (key ops [] (by simp) (by simp [countCurrent])).2
  · rw [List.all_eq_true]
    intro r hr
    by_cases hv : v.is_current = true
    · by_cases hrc : r.is_current = true
      · unfold lvSave lvUpsert at hr
        by_cases hany : (lvSweep v rows).any (fun r => r.pk == v.pk) = true
        · rw [if_pos hany] at hr
          obtain ⟨l1, x, l2, hl, hx, _, hm⟩ :=
            mapFirst_split (fun r => r.pk == v.pk) (fun _ => v) (lvSweep v rows) hany
          rw [hm] at hr
          rcases List.mem_append.mp hr with h | h
          · have : r ∈ lvSweep v rows := by rw [hl]; exact List.mem_append_left _ h
            have hpk : r.pk = v.pk := by
              unfold lvSweep at this
              rw [if_pos hv] at this
              exact unset_sweep_current v rows r this hrc
            simp [hpk]
          · rcases List.mem_cons.mp h with rfl | h
            · simp
            · have : r ∈ lvSweep v rows := by
                rw [hl]; exact List.mem_append_right _ (List.mem_cons_of_mem _ h)
              have hpk : r.pk = v.pk := by
                unfold lvSweep at this
                rw [if_pos hv] at this
                exact unset_sweep_current v rows r this hrc
              simp [hpk]
        · rw [if_neg hany] at hr
          rcases List.mem_append.mp hr with h | h
          · have hpk : r.pk = v.pk := by
              unfold lvSweep at h
              rw [if_pos hv] at h
              exact unset_sweep_current v rows r h hrc
            simp [hpk]
          · rcases List.mem_cons.mp h with rfl | h
            · simp
            · simp at h
      · simp [Bool.eq_false_iff.mpr hrc]
    · simp [Bool.eq_false_iff.mpr hv]

/-- `mapFirst` with the identity transform changes nothing. -/
theorem mapFirst_id (p : α → Bool) : ∀ l : List α, mapFirst p (fun x => x) l = l := by
  intro l
  induction l with
  | nil => rfl
  | cons a l ih => by_cases h : p a <;> simp [mapFirst, h, ih]

/-- `mapFirst` only looks at the transform pointwise. -/
theorem mapFirst_congr (p : α → Bool) (f g : α → α) (h : ∀ x, f x = g x) :
    ∀ l : List α, mapFirst p f l = mapFirst p g l := by
  intro l
  induction l with
  | nil => rfl
  | cons a l ih => by_cases ha : p a <;> simp [mapFirst, ha, ih, h]

/-- `mapFirst` skips over a prefix with no match. -/
theorem mapFirst_append_not (p : α → Bool) (f : α → α) (l1 l2 : List α)
    (h : ∀ y ∈ l1, p y = false) :
    mapFirst p f (l1 ++ l2) = l1 ++ mapFirst p f l2 := by
  induction l1 with
  | nil => rfl
  | cons a l1 ih =>
    have ha := h a (by simp)
    simp only [List.cons_append, mapFirst, ha]
    simp [ih (fun y hy => h y (List.mem_cons_of_mem a hy))]

/-- Two `mapFirst` passes with the same key fuse when the first transform
preserves the key. -/
theorem mapFirst_mapFirst (p : α → Bool) (f g : α → α)
    (hg : ∀ x, p (g x) = p x) :
    ∀ l : List α, mapFirst p f (mapFirst p g l) = mapFirst p (fun x => f (g x)) l := by
  intro l
  induction l with
  | nil => rfl
  | cons a l ih =>
    by_cases ha : p a
    · simp [mapFirst, ha, hg]
    · simp [mapFirst, ha, ih]

/-- Every row transform of the import leaves `model_number` unchanged. -/
theorem appliedTrans_model (doc : DeviceDoc) (d : DeviceRow) :
    (appliedTrans doc d).model_number = d.model_number := by
  unfold appliedTrans
  dsimp only
  repeat' split
  all_goals simp [importProcessorRow, importControlRow, importModbusRow,
    importLorawanRow, importWmbusRow]

/-- `find?` skips over a prefix with no match. -/
theorem find?_append_none (p : α → Bool) (l1 l2 : List α)
    (h : ∀ y ∈ l1, p y = false) : (l1 ++ l2).find? p = l2.find? p := by
  induction l1 with
  | nil => rfl
  | cons a l1 ih =>
    have ha := h a (by simp)
    simp only [List.cons_append, List.find?_cons, ha]
    exact ih (fun y hy => h y (List.mem_cons_of_mem a hy))

/-- Splitting a list at the element `find?` returns. -/
theorem find?_split (p : α → Bool) (l : List α) (x : α) (h : l.find? p = some x) :
    ∃ l1 l2, l = l1 ++ x :: l2 ∧ p x = true ∧ ∀ y ∈ l1, p y = false := by
  induction l with
  | nil => simp at h
  | cons a l ih =>
    by_cases ha : p a = true
    · simp only [List.find?_cons, ha] at h
      have hax : a = x := by simpa using h
      subst hax
      exact ⟨[], l, by simp, ha, by simp⟩
    · have ha' : p a = false := Bool.eq_false_iff.mpr ha
      simp only [List.find?_cons, ha'] at h
      obtain ⟨l1, l2, hl, hx, hl1⟩ := ih h
      refine ⟨a :: l1, l2, by simp [hl], hx, ?_⟩
      intro y hy
      rcases List.mem_cons.mp hy with rfl | hy
      · exact ha'
      · exact hl1 y hy

/-- `modifyDevice` with the identity transform changes nothing. -/
theorem modifyDevice_id (slug model : String) (c : Catalog) :
    modifyDevice slug model (fun d => d) c = c := by
  unfold modifyDevice
  rw [mapFirst_congr _ _ (fun v => v) (fun v => by rw [mapFirst_id])]
  exact mapFirst_id _ c

/-- Two `modifyDevice` passes at the same key fuse (the inner transform keeps
the key). -/
theorem modifyDevice_comp (slug model : String) (f g : DeviceRow → DeviceRow)
    (hg : ∀ d, (g d).model_number = d.model_number) (c : Catalog) :
    modifyDevice slug model f (modifyDevice slug model g c) =
      modifyDevice slug model (fun d => f (g d)) c := by
  unfold modifyDevice
  rw [mapFirst_mapFirst (fun v => v.slug == slug)
      (fun v => { v with devices := mapFirst (fun d => d.model_number == model) f v.devices })
      (fun v => { v with devices := mapFirst (fun d => d.model_number == model) g v.devices })
      (fun v => rfl) c]
  apply mapFirst_congr
  intro v
  dsimp only
  rw [mapFirst_mapFirst (fun d => d.model_number == model) f g (fun d => by dsimp only; rw [hg d]) v.devices]

/-- `modifyDevice` at an explicitly decomposed key position. -/
theorem modifyDevice_decomp (slug model : String) (f : DeviceRow → DeviceRow)
    (c1 c2 : Catalog) (v : VendorRow) (d1 d2 : List DeviceRow) (d : DeviceRow)
    (hfresh : ∀ w ∈ c1, (w.slug == slug) = false)
    (hslug : (v.slug == slug) = true)
    (hdev : v.devices = d1 ++ d :: d2)
    (hd1 : ∀ y ∈ d1, (y.model_number == model) = false)
    (hd : (d.model_number == model) = true) :
    modifyDevice slug model f (c1 ++ v :: c2) =
      c1 ++ { v with devices := d1 ++ f d :: d2 } :: c2 := by
  unfold modifyDevice
  rw [mapFirst_append_not _ _ _ _ hfresh]
  have h1 : mapFirst (fun v => v.slug == slug)
      (fun v => { v with devices := mapFirst (fun d => d.model_number == model) f v.devices })
      (v :: c2) =
      { v with devices := mapFirst (fun d => d.model_number == model) f v.devices } :: c2 := by
    simp [mapFirst, hslug]
  rw [h1, hdev, mapFirst_append_not _ _ _ _ hd1]
  have h2 : mapFirst (fun d => d.model_number == model) f (d :: d2) = f d :: d2 := by
    simp [mapFirst, hd]
  rw [h2]

/-- `findVendor` at an explicitly decomposed position. -/
theorem findVendor_decomp (slug : String) (c1 c2 : Catalog) (v : VendorRow)
    (hfresh : ∀ w ∈ c1, (w.slug == slug) = false)
    (hslug : (v.slug == slug) = true) :
    findVendor (c1 ++ v :: c2) slug = some v := by
  unfold findVendor
  rw [find?_append_none _ _ _ hfresh]
  simp [List.find?_cons, hslug]

/-- `findDevice` at an explicitly decomposed vendor position. -/
theorem findDevice_decomp (slug model : String) (c1 c2 : Catalog) (v : VendorRow)
    (hfresh : ∀ w ∈ c1, (w.slug == slug) = false)
    (hslug : (v.slug == slug) = true) :
    findDevice (c1 ++ v :: c2) slug model =
      v.devices.find? (fun d => d.model_number == model) := by
  unfold findDevice
  rw [findVendor_decomp slug c1 c2 v hfresh hslug]
  rfl

/-- `_import_device` on a pre-existing `(vendor, model)` key: the row is
rewritten in place to `appliedRow` of its old value and `devices_updated`
advances. -/
theorem importDevice_eq_existing (slug : String) (doc : DeviceDoc) (model : String)
    (c : Catalog) (stats : Stats)
    (hm : doc.model_number = some model)
    (hex : (findDevice c slug model).isSome = true) :
    importDevice slug doc (c, stats) =
      .ok (modifyDevice slug model (fun d => appliedRow doc model (some d)) c,
        { stats with devices_updated := stats.devices_updated + 1 }) := by
  unfold importDevice updateOrCreateDevice
  rw [hm]
  simp only [hex, if_true]
  simp only [Except.ok.injEq, Prod.mk.injEq]
  constructor
  · exact modifyDevice_comp slug model (appliedTrans doc) (fun d => appliedScalars doc d)
      (fun d => rfl) c
  · rfl

/-- `_import_device` on a fresh `(vendor, model)` key: a new row is appended
to the vendor resolved by slug, the config tail applies to it, and
`devices_created` advances. -/
theorem importDevice_eq_fresh (slug : String) (doc : DeviceDoc) (model : String)
    (c : Catalog) (stats : Stats)
    (hm : doc.model_number = some model)
    (hnone : findDevice c slug model = none) :
    importDevice slug doc (c, stats) =
      .ok (modifyDevice slug model (appliedTrans doc)
             (mapFirst (fun v => v.slug == slug)
               (fun v => { v with devices := v.devices ++ [createdRow doc model] }) c),
        { stats with devices_created := stats.devices_created + 1 }) := by
  unfold importDevice updateOrCreateDevice
  rw [hm]
  simp only [hnone, Option.isSome_none, Bool.false_eq_true, if_false]
  rfl

/-- `mapFirst` at an explicitly decomposed match position. -/
theorem mapFirst_decomp (p : α → Bool) (f : α → α) (l1 l2 : List α) (x : α)
    (h1 : ∀ y ∈ l1, p y = false) (hx : p x = true) :
    mapFirst p f (l1 ++ x :: l2) = l1 ++ f x :: l2 := by
  rw [mapFirst_append_not _ _ _ _ h1]
  simp [mapFirst, hx]

/-- The catalog produced by `_import_device` for a fresh `(vendor, model)`
key, in explicit form: the new row, with its configs applied, is appended to
the vendor's devices. -/
theorem importDevice_result_fresh (slug model : String) (doc : DeviceDoc)
    (stats : Stats) (c1 c2 : Catalog) (v : VendorRow)
    (hfresh : ∀ w ∈ c1, (w.slug == slug) = false)
    (hslug : (v.slug == slug) = true)
    (hm : doc.model_number = some model)
    (hnone : ∀ y ∈ v.devices, (y.model_number == model) = false) :
    importDevice slug doc (c1 ++ v :: c2, stats) =
      .ok (c1 ++ { v with devices := v.devices ++ [appliedRow doc model none] } :: c2,
        { stats with devices_created := stats.devices_created + 1 }) := by
  have hfd : findDevice (c1 ++ v :: c2) slug model = none := by
    rw [findDevice_decomp slug model c1 c2 v hfresh hslug]
    exact List.find?_eq_none.mpr (fun y hy => by simp [hnone y hy])
  rw [importDevice_eq_fresh slug doc model _ stats hm hfd]
  rw [mapFirst_decomp _ _ c1 c2 v hfresh hslug]
  rw [modifyDevice_decomp slug model (appliedTrans doc) c1 c2
    { v with devices := v.devices ++ [createdRow doc model] } v.devices [] (createdRow doc model)
    hfresh hslug rfl hnone (by simp [createdRow])]
  rfl

/-- The catalog produced by `_import_device` for an existing
`(vendor, model)` key, in explicit form: the row is rewritten in place. -/
theorem importDevice_result_existing (slug model : String) (doc : DeviceDoc)
    (stats : Stats) (c1 c2 : Catalog) (v : VendorRow)
    (d1 d2 : List DeviceRow) (d : DeviceRow)
    (hfresh : ∀ w ∈ c1, (w.slug == slug) = false)
    (hslug : (v.slug == slug) = true)
    (hm : doc.model_number = some model)
    (hdev : v.devices = d1 ++ d :: d2)
    (hd1 : ∀ y ∈ d1, (y.model_number == model) = false)
    (hd : (d.model_number == model) = true) :
    importDevice slug doc (c1 ++ v :: c2, stats) =
      .ok (c1 ++ { v with devices := d1 ++ appliedRow doc model (some d) :: d2 } :: c2,
        { stats with devices_updated := stats.devices_updated + 1 }) := by
  have hfd : (findDevice (c1 ++ v :: c2) slug model).isSome = true := by
    rw [findDevice_decomp slug model c1 c2 v hfresh hslug, hdev,
      find?_append_none _ _ _ hd1]
    simp [List.find?_cons, hd]
  rw [importDevice_eq_existing slug doc model _ stats hm hfd]
  rw [modifyDevice_decomp slug model _ c1 c2 v d1 d2 d hfresh hslug hdev hd1 hd]

/-- With `technology = "modbus"`, the config tail of the device import sets
the `ModbusConfig` row to exactly the document's values — in particular the
registers become exactly the mapped `register_definitions` list, whatever the
row held before. -/
theorem appliedTrans_modbus (doc : DeviceDoc) (d : DeviceRow)
    (htech : (doc.technology_config.getD ({} : TechConfigDoc)).technology.getD "" = "modbus") :
    (appliedTrans doc d).modbus_config = some
      { function := (doc.technology_config.getD ({} : TechConfigDoc)).function.getD ""
        byte_order := (doc.technology_config.getD ({} : TechConfigDoc)).byte_order.getD ""
        word_order := (doc.technology_config.getD ({} : TechConfigDoc)).word_order.getD ""
        registers := ((doc.technology_config.getD ({} : TechConfigDoc)).register_definitions.getD []).map importedRegister } := by
  unfold appliedTrans
  dsimp only
  rw [if_pos htech]
  split <;> split <;>
    simp [importControlRow, importProcessorRow, importModbusRow]

/-- The imported row keeps the key it was selected (or created) by. -/
theorem appliedRow_model (doc : DeviceDoc) (model : String) (old : Option DeviceRow) :
    (appliedRow doc model old).model_number =
      (match old with | some d => d.model_number | none => model) := by
  cases old <;> simp [appliedRow, appliedTrans_model, createdRow, appliedScalars]

/-- C7: importing a device entry whose `technology_config.technology` is
`"modbus"` leaves the device's `ModbusConfig` holding exactly the register
rows described by the YAML's `register_definitions` list — whatever register
rows existed before are gone, so no register at an address absent from the
new list survives. -/
theorem c7_modbus_registers_exact
    (slug model : String) (doc : DeviceDoc) (stats : Stats)
    (c1 c2 : Catalog) (v : VendorRow)
    (hfresh : ∀ w ∈ c1, (w.slug == slug) = false)
    (hslug : (v.slug == slug) = true)
    (hm : doc.model_number = some model)
    (htech : (doc.technology_config.getD ({} : TechConfigDoc)).technology.getD "" = "modbus") :
    ∃ c' stats' d',
      importDevice slug doc (c1 ++ v :: c2, stats) = .ok (c', stats') ∧
      findDevice c' slug model = some d' ∧
      d'.modbus_config.map (fun mb => mb.registers) =
        some (((doc.technology_config.getD ({} : TechConfigDoc)).register_definitions.getD []).map
          importedRegister) := by
  cases hfind : v.devices.find? (fun y => y.model_number == model) with
  | none =>
    have hnone : ∀ y ∈ v.devices, (y.model_number == model) = false := by
      intro y hy
      have := List.find?_eq_none.mp hfind y hy
      simpa using this
    refine ⟨_, _, appliedRow doc model none,
      importDevice_result_fresh slug model doc stats c1 c2 v hfresh hslug hm hnone, ?_, ?_⟩
    · rw [findDevice_decomp slug model c1 c2
        { v with devices := v.devices ++ [appliedRow doc model none] } hfresh hslug]
      rw [find?_append_none _ _ _ hnone]
      simp [List.find?_cons, appliedRow_model]
    · simp only [appliedRow]
      rw [appliedTrans_modbus _ _ htech]
      rfl
  | some d =>
    obtain ⟨d1, d2, hdev, hd, hd1⟩ := find?_split _ _ _ hfind
    refine ⟨_, _, appliedRow doc model (some d),
      importDevice_result_existing slug model doc stats c1 c2 v d1 d2 d
        hfresh hslug hm hdev hd1 hd, ?_, ?_⟩
    · rw [findDevice_decomp slug model c1 c2
        { v with devices := d1 ++ appliedRow doc model (some d) :: d2 } hfresh hslug]
      rw [find?_append_none _ _ _ hd1]
      have : (appliedRow doc model (some d)).model_number = model := by
        rw [appliedRow_model]
        simpa using hd
      simp [List.find?_cons, this]
    · simp only [appliedRow]
      rw [appliedTrans_modbus _ _ htech]
      rfl


/-- Witness for `c7_modbus_registers_exact`: a concrete modbus device entry
imported into a one-vendor catalog whose device already holds a register at
address 99, absent from the new list. -/
theorem c7_modbus_registers_exact_witness :
    ∃ c' stats' d',
      importDevice "acme" sampleModbusDoc ([] ++ sampleVendor :: [], ({} : Stats)) =
        .ok (c', stats') ∧
      findDevice c' "acme" "EM-1" = some d' ∧
      d'.modbus_config.map (fun mb => mb.registers) =
        some (((sampleModbusDoc.technology_config.getD
          ({} : TechConfigDoc)).register_definitions.getD []).map importedRegister) :=
  c7_modbus_registers_exact "acme" "EM-1" sampleModbusDoc ({} : Stats) [] [] sampleVendor
    (by intro w hw; simp at hw) (by decide) rfl (by decide)

/-- C9: after importing a modbus device entry, the device's register rows are
exactly the file's list, and querying them (model-ordered by address) yields
an address-ascending permutation of those rows — whatever order the file
listed them in. -/
theorem c9_registers_query_sorted
    (slug model : String) (doc : DeviceDoc) (stats : Stats)
    (c1 c2 : Catalog) (v : VendorRow)
    (hfresh : ∀ w ∈ c1, (w.slug == slug) = false)
    (hslug : (v.slug == slug) = true)
    (hm : doc.model_number = some model)
    (htech : (doc.technology_config.getD ({} : TechConfigDoc)).technology.getD "" = "modbus") :
    ∃ c' stats' d' mb,
      importDevice slug doc (c1 ++ v :: c2, stats) = .ok (c', stats') ∧
      findDevice c' slug model = some d' ∧
      d'.modbus_config = some mb ∧
      mb.registers = ((doc.technology_config.getD
        ({} : TechConfigDoc)).register_definitions.getD []).map importedRegister ∧
      List.Sorted (fun a b : RegisterRow => a.address ≤ b.address) (queryRegisters mb.registers) ∧
      (queryRegisters mb.registers).Perm mb.registers := by
  have hmain : ∀ (c' : Catalog) (stats' : Stats) (d' : DeviceRow),
      importDevice slug doc (c1 ++ v :: c2, stats) = .ok (c', stats') →
      findDevice c' slug model = some d' →
      d'.modbus_config = some
        { function := (doc.technology_config.getD ({} : TechConfigDoc)).function.getD ""
          byte_order := (doc.technology_config.getD ({} : TechConfigDoc)).byte_order.getD ""
          word_order := (doc.technology_config.getD ({} : TechConfigDoc)).word_order.getD ""
          registers := ((doc.technology_config.getD
            ({} : TechConfigDoc)).register_definitions.getD []).map importedRegister } →
      ∃ c'' stats'' d'' mb,
        importDevice slug doc (c1 ++ v :: c2, stats) = .ok (c'', stats'') ∧
        findDevice c'' slug model = some d'' ∧
        d''.modbus_config = some mb ∧
        mb.registers = ((doc.technology_config.getD
          ({} : TechConfigDoc)).register_definitions.getD []).map importedRegister ∧
        List.Sorted (fun a b : RegisterRow => a.address ≤ b.address) (queryRegisters mb.registers) ∧
        (queryRegisters mb.registers).Perm mb.registers := by
    intro c' stats' d' hok hfd hmb
    refine ⟨c', stats', d', _, hok, hfd, hmb, rfl, ?_, ?_⟩
    · exact List.sorted_insertionSort _ _
    · exact List.perm_insertionSort _ _
  cases hfind : v.devices.find? (fun y => y.model_number == model) with
  | none =>
    have hnone : ∀ y ∈ v.devices, (y.model_number == model) = false := by
      intro y hy
      have := List.find?_eq_none.mp hfind y hy
      simpa using this
    refine hmain _ _ (appliedRow doc model none)
      (importDevice_result_fresh slug model doc stats c1 c2 v hfresh hslug hm hnone) ?_ ?_
    · rw [findDevice_decomp slug model c1 c2
        { v with devices := v.devices ++ [appliedRow doc model none] } hfresh hslug]
      rw [find?_append_none _ _ _ hnone]
      simp [List.find?_cons, appliedRow_model]
    · simp only [appliedRow]
      rw [appliedTrans_modbus _ _ htech]
  | some d =>
    obtain ⟨d1, d2, hdev, hd, hd1⟩ := find?_split _ _ _ hfind
    refine hmain _ _ (appliedRow doc model (some d))
      (importDevice_result_existing slug model doc stats c1 c2 v d1 d2 d
        hfresh hslug hm hdev hd1 hd) ?_ ?_
    · rw [findDevice_decomp slug model c1 c2
        { v with devices := d1 ++ appliedRow doc model (some d) :: d2 } hfresh hslug]
      rw [find?_append_none _ _ _ hd1]
      have hmm : (appliedRow doc model (some d)).model_number = model := by
        rw [appliedRow_model]
        simpa using hd
      simp [List.find?_cons, hmm]
    · simp only [appliedRow]
      rw [appliedTrans_modbus _ _ htech]

/-- Witness for `c9_registers_query_sorted`: registers listed at addresses 10
then 5 in the file come back from the query at 5 then 10. -/
theorem c9_registers_query_sorted_witness :
    ∃ c' stats' d' mb,
      importDevice "acme" sampleUnsortedDoc ([] ++ sampleVendor :: [], ({} : Stats)) =
        .ok (c', stats') ∧
      findDevice c' "acme" "EM-2" = some d' ∧
      d'.modbus_config = some mb ∧
      mb.registers = ((sampleUnsortedDoc.technology_config.getD
        ({} : TechConfigDoc)).register_definitions.getD []).map importedRegister ∧
      List.Sorted (fun a b : RegisterRow => a.address ≤ b.address) (queryRegisters mb.registers) ∧
      (queryRegisters mb.registers).Perm mb.registers :=
  c9_registers_query_sorted "acme" "EM-2" sampleUnsortedDoc ({} : Stats) [] [] sampleVendor
    (by intro w hw; simp at hw) (by decide) rfl (by decide)

/-- C6: per-record failures never abort the import. A manifest entry whose
vendor file is missing only appends a `File not found` error (no vendor row is
created) and the loop goes on to the next entry; a device entry whose import
raises only appends an `Error importing {model} from {vendor}: {e}` message
naming the vendor and the model number (`?` when absent) and the loop goes on;
and with the manifest and devices directory present, `import_from_yaml`
always returns the accumulated stats instead of raising. -/
theorem c6_per_record_failures_recovered :
    (∀ (devicesPath : String) (files : List (String × FileDoc)) (entry : ManifestEntry)
       (st : Catalog × Stats),
       files.find? (fun kv => kv.1 == entry.file) = none →
       processVendorEntry devicesPath files entry st =
         (st.1, addError st.2 ("File not found: " ++ devicesPath ++ "/" ++ entry.file))) ∧
    (∀ (slug vendorName : String) (doc : DeviceDoc) (st : Catalog × Stats),
       doc.model_number = none →
       importDeviceChecked slug vendorName doc st =
         (st.1, addError st.2
           ("Error importing ? from " ++ vendorName ++ ": 'model_number'"))) ∧
    (∀ (devicesPath : String) (files : List (String × FileDoc)) (entry : ManifestEntry)
       (rest : List ManifestEntry) (st : Catalog × Stats),
       (entry :: rest).foldl (fun st e => processVendorEntry devicesPath files e st) st =
         rest.foldl (fun st e => processVendorEntry devicesPath files e st)
           (processVendorEntry devicesPath files entry st)) ∧
    (∀ (fs : ImportFS) (clear : Bool) (c : Catalog) (m : ManifestDoc)
       (files : List (String × FileDoc)),
       fs.manifest = some m → fs.files = some files →
       ∃ c' stats, importFromYaml fs clear c = (c', .ok stats)) := by
  refine ⟨?_, ?_, ?_, ?_⟩
  · intro devicesPath files entry st h
    simp [processVendorEntry, h, toString, String.append_empty]
  · intro slug vendorName doc st h
    simp only [importDeviceChecked, importDevice, h, toString, String.append_empty,
      Option.getD_none]
    have h1 : ("Error importing " ++ "?" ++ " from " : String) = "Error importing ? from " := by
      decide
    have h2 : ((": " ++ "'model_number'" : String)) = ": 'model_number'" := by decide
    rw [h1, String.append_assoc, h2]
  · intro devicesPath files entry rest st
    rfl
  · intro fs clear c m files hm hf
    unfold importFromYaml
    rw [hm, hf]
    exact ⟨_, _, rfl⟩

/-- Witness for `c6_per_record_failures_recovered` at concrete inputs. -/
theorem c6_per_record_failures_recovered_witness :
    processVendorEntry "/data/devices" [] { name := "Acme", file := "acme.yaml" }
        ([], ({} : Stats)) =
      ([], addError ({} : Stats) "File not found: /data/devices/acme.yaml") ∧
    importDeviceChecked "acme" "Acme" ({} : DeviceDoc) ([], ({} : Stats)) =
      ([], addError ({} : Stats) "Error importing ? from Acme: 'model_number'") ∧
    (∃ c' stats,
      importFromYaml sampleEmptyDirFS false [] = (c', .ok stats)) := by
  refine ⟨?_, ?_, ?_⟩
  · have h := c6_per_record_failures_recovered.1 "/data/devices" []
      { name := "Acme", file := "acme.yaml" } ([], ({} : Stats)) rfl
    simpa using h
  · have h := c6_per_record_failures_recovered.2.1 "acme" "Acme" ({} : DeviceDoc)
      ([], ({} : Stats)) rfl
    simpa using h
  · exact c6_per_record_failures_recovered.2.2.2
      sampleEmptyDirFS false [] sampleManifest [] rfl rfl

/-- With a technology outside the three-way dispatch, the config tail of the
device import is the identity on all three technology-config rows. -/
theorem appliedTrans_frame (doc : DeviceDoc) (d : DeviceRow)
    (h1 : (doc.technology_config.getD ({} : TechConfigDoc)).technology.getD "" ≠ "modbus")
    (h2 : (doc.technology_config.getD ({} : TechConfigDoc)).technology.getD "" ≠ "lorawan")
    (h3 : (doc.technology_config.getD ({} : TechConfigDoc)).technology.getD "" ≠ "wmbus") :
    (appliedTrans doc d).modbus_config = d.modbus_config ∧
    (appliedTrans doc d).lorawan_config = d.lorawan_config ∧
    (appliedTrans doc d).wmbus_config = d.wmbus_config := by
  unfold appliedTrans
  dsimp only
  rw [if_neg h1, if_neg h2, if_neg h3]
  refine ⟨?_, ?_, ?_⟩ <;>
    (split <;> split <;> simp [importControlRow, importProcessorRow])

/-- The config tail never touches the `technology` scalar. -/
theorem appliedTrans_technology (doc : DeviceDoc) (d : DeviceRow) :
    (appliedTrans doc d).technology = d.technology := by
  unfold appliedTrans
  dsimp only
  repeat' split
  all_goals simp [importProcessorRow, importControlRow, importModbusRow,
    importLorawanRow, importWmbusRow]

/-- C10: importing a device entry whose `technology_config.technology` is
absent or none of `"modbus"`/`"lorawan"`/`"wmbus"` still upserts the
`DeviceType` row — storing the given technology string, which defaults to the
empty string — and counts it in `devices_created`/`devices_updated`, while
every existing `ModbusConfig`, `LoRaWANConfig` and `WMBusConfig` row of the
catalog is left unchanged. -/
theorem c10_unknown_technology_frame
    (slug model : String) (doc : DeviceDoc) (stats : Stats)
    (c1 c2 : Catalog) (v : VendorRow)
    (hfresh : ∀ w ∈ c1, (w.slug == slug) = false)
    (hslug : (v.slug == slug) = true)
    (hm : doc.model_number = some model)
    (h1 : (doc.technology_config.getD ({} : TechConfigDoc)).technology.getD "" ≠ "modbus")
    (h2 : (doc.technology_config.getD ({} : TechConfigDoc)).technology.getD "" ≠ "lorawan")
    (h3 : (doc.technology_config.getD ({} : TechConfigDoc)).technology.getD "" ≠ "wmbus") :
    ∃ c' stats' d',
      importDevice slug doc (c1 ++ v :: c2, stats) = .ok (c', stats') ∧
      findDevice c' slug model = some d' ∧
      d'.technology = (doc.technology_config.getD ({} : TechConfigDoc)).technology.getD "" ∧
      modbusRows c' = modbusRows (c1 ++ v :: c2) ∧
      lorawanRows c' = lorawanRows (c1 ++ v :: c2) ∧
      wmbusRows c' = wmbusRows (c1 ++ v :: c2) ∧
      stats'.devices_created + stats'.devices_updated =
        stats.devices_created + stats.devices_updated + 1 := by
  cases hfind : v.devices.find? (fun y => y.model_number == model) with
  | none =>
    have hnone : ∀ y ∈ v.devices, (y.model_number == model) = false := by
      intro y hy
      have := List.find?_eq_none.mp hfind y hy
      simpa using this
    have hcm : (appliedRow doc model none).modbus_config = none := by
      simp only [appliedRow]
      rw [(appliedTrans_frame doc _ h1 h2 h3).1]
      rfl
    have hcl : (appliedRow doc model none).lorawan_config = none := by
      simp only [appliedRow]
      rw [(appliedTrans_frame doc _ h1 h2 h3).2.1]
      rfl
    have hcw : (appliedRow doc model none).wmbus_config = none := by
      simp only [appliedRow]
      rw [(appliedTrans_frame doc _ h1 h2 h3).2.2]
      rfl
    refine ⟨_, _, appliedRow doc model none,
      importDevice_result_fresh slug model doc stats c1 c2 v hfresh hslug hm hnone,
      ?_, ?_, ?_, ?_, ?_, ?_⟩
    · rw [findDevice_decomp slug model c1 c2
        { v with devices := v.devices ++ [appliedRow doc model none] } hfresh hslug]
      rw [find?_append_none _ _ _ hnone]
      simp [List.find?_cons, appliedRow_model]
    · simp only [appliedRow]
      rw [appliedTrans_technology]
      rfl
    · simp [modbusRows, List.filterMap_append, hcm]
    · simp [lorawanRows, List.filterMap_append, hcl]
    · simp [wmbusRows, List.filterMap_append, hcw]
    · simp only []
      omega
  | some d =>
    obtain ⟨d1, d2, hdev, hd, hd1⟩ := find?_split _ _ _ hfind
    have hmm : (appliedRow doc model (some d)).model_number = d.model_number := by
      rw [appliedRow_model]
    have hcm : (appliedRow doc model (some d)).modbus_config = d.modbus_config := by
      simp only [appliedRow]
      rw [(appliedTrans_frame doc _ h1 h2 h3).1]
      rfl
    have hcl : (appliedRow doc model (some d)).lorawan_config = d.lorawan_config := by
      simp only [appliedRow]
      rw [(appliedTrans_frame doc _ h1 h2 h3).2.1]
      rfl
    have hcw : (appliedRow doc model (some d)).wmbus_config = d.wmbus_config := by
      simp only [appliedRow]
      rw [(appliedTrans_frame doc _ h1 h2 h3).2.2]
      rfl
    refine ⟨_, _, appliedRow doc model (some d),
      importDevice_result_existing slug model doc stats c1 c2 v d1 d2 d
        hfresh hslug hm hdev hd1 hd, ?_, ?_, ?_, ?_, ?_, ?_⟩
    · rw [findDevice_decomp slug model c1 c2
        { v with devices := d1 ++ appliedRow doc model (some d) :: d2 } hfresh hslug]
      rw [find?_append_none _ _ _ hd1]
      have hkey : (appliedRow doc model (some d)).model_number = model := by
        rw [appliedRow_model]
        simpa using hd
      simp [List.find?_cons, hkey]
    · simp only [appliedRow]
      rw [appliedTrans_technology]
      rfl
    · simp [modbusRows, hdev, List.filterMap_append, List.filterMap_cons, hcm, hmm]
    · simp [lorawanRows, hdev, List.filterMap_append, List.filterMap_cons, hcl, hmm]
    · simp [wmbusRows, hdev, List.filterMap_append, List.filterMap_cons, hcw, hmm]
    · simp only []
      omega

/-- Witness for `c10_unknown_technology_frame`: a "zigbee" device entry
imported next to an existing modbus device whose config rows must survive. -/
theorem c10_unknown_technology_frame_witness :
    ∃ c' stats' d',
      importDevice "acme" sampleUnknownDoc ([] ++ sampleVendor :: [], ({} : Stats)) =
        .ok (c', stats') ∧
      findDevice c' "acme" "ZB-1" = some d' ∧
      d'.technology =
        (sampleUnknownDoc.technology_config.getD ({} : TechConfigDoc)).technology.getD "" ∧
      modbusRows c' = modbusRows ([] ++ sampleVendor :: []) ∧
      lorawanRows c' = lorawanRows ([] ++ sampleVendor :: []) ∧
      wmbusRows c' = wmbusRows ([] ++ sampleVendor :: []) ∧
      stats'.devices_created + stats'.devices_updated =
        ({} : Stats).devices_created + ({} : Stats).devices_updated + 1 :=
  c10_unknown_technology_frame "acme" "ZB-1" sampleUnknownDoc ({} : Stats) [] [] sampleVendor
    (by intro w hw; simp at hw) (by decide) rfl (by decide) (by decide) (by decide)

/-- C2, counterexample to the claim as stated: changing a device's
technology_config (here a register scale, which visibly changes both the
serialized technology_config and the sync payload) leaves the md5 input of
the manifest ETag and the md5 input of the sync ETag — hence both ETags,
md5 being a function of its input — exactly as before, so the ETag on the
next request does not differ. -/
theorem c2_etag_counterexample :
    serializerTechConfig sampleOldDevice ≠ serializerTechConfig sampleOldDeviceScaled ∧
    syncBody sampleApiState1 ≠ syncBody sampleApiState2 ∧
    manifestEtagInput sampleApiState1 = manifestEtagInput sampleApiState2 ∧
    syncEtagInput sampleApiState1 = syncEtagInput sampleApiState2 := by
  refine ⟨?_, ?_, ?_, ?_⟩ <;> decide

/-- C2, amended: a request whose `If-None-Match` equals the quoted current
ETag gets the 304-equivalent empty response (manifest and sync endpoints
alike); but the ETag only tracks its hash input — `str` of the manifest
payload, resp. `str` of the maximum DeviceType `modified` timestamp — so any
change leaving that input unchanged (as a change confined to
technology-config rows does) leaves the ETag unchanged. -/
theorem c2_amended_etag_semantics (hash : String → String) (st st' : ApiState)
    (ifNoneMatch : String) :
    (ifNoneMatch = quoteEtag (hash (manifestEtagInput st)) →
      manifestList hash st ifNoneMatch = .notModified) ∧
    (∀ lm, lastModified st = some lm →
      ifNoneMatch = quoteEtag (hash (toString lm)) →
      syncList hash st ifNoneMatch = .notModified) ∧
    (manifestPayload st = manifestPayload st' →
      manifestEtagInput st = manifestEtagInput st') ∧
    (lastModified st = lastModified st' → syncEtagInput st = syncEtagInput st') := by
  refine ⟨?_, ?_, ?_, ?_⟩
  · intro h
    unfold manifestList
    rw [if_pos h]
  · intro lm hlm h
    unfold syncList
    rw [hlm]
    simp only
    rw [if_pos h]
  · intro h
    unfold manifestEtagInput
    rw [h]
  · intro h
    unfold syncEtagInput
    rw [h]

/-- Witness for `c2_amended_etag_semantics` at the concrete states of the
counterexample (with the hash instantiated by a concrete function). -/
theorem c2_amended_etag_semantics_witness :
    manifestList (fun s => s) sampleApiState1
      (quoteEtag (manifestEtagInput sampleApiState1)) = .notModified ∧
    syncList (fun s => s) sampleApiState1
      (quoteEtag (toString (10 : Nat))) = .notModified ∧
    manifestEtagInput sampleApiState1 = manifestEtagInput sampleApiState2 ∧
    syncEtagInput sampleApiState1 = syncEtagInput sampleApiState2 := by
  refine ⟨?_, ?_, ?_, ?_⟩
  · exact (c2_amended_etag_semantics (fun s => s) sampleApiState1 sampleApiState1
      (quoteEtag (manifestEtagInput sampleApiState1))).1 rfl
  · exact (c2_amended_etag_semantics (fun s => s) sampleApiState1 sampleApiState1
      (quoteEtag (toString (10 : Nat)))).2.1 10 (by decide) rfl
  · exact (c2_amended_etag_semantics (fun s => s) sampleApiState1 sampleApiState2
      "").2.2.1 (by decide)
  · exact (c2_amended_etag_semantics (fun s => s) sampleApiState1 sampleApiState2
      "").2.2.2 (by decide)

/-- `find?` ignores a middle element replaced by another non-match. -/
theorem find?_middle_not (p : α → Bool) (l1 l2 : List α) (x y : α)
    (hx : p x = false) (hy : p y = false) :
    (l1 ++ x :: l2).find? p = (l1 ++ y :: l2).find? p := by
  induction l1 with
  | nil => simp [List.find?_cons, hx, hy]
  | cons a l ih => by_cases ha : p a <;> simp [List.find?_cons, ha, ih]

/-- Splitting a well-keyed catalog at the vendor `findVendor` returns: the
slug appears nowhere else. -/
theorem findVendor_split (c : Catalog) (slug : String) (v : VendorRow)
    (hnd : (c.map (fun v => v.slug)).Nodup)
    (h : findVendor c slug = some v) :
    ∃ c1 c2, c = c1 ++ v :: c2 ∧ (v.slug == slug) = true ∧
      (∀ w ∈ c1, (w.slug == slug) = false) ∧ (∀ w ∈ c2, (w.slug == slug) = false) := by
  obtain ⟨c1, c2, hc, hv, hc1⟩ := find?_split _ _ _ h
  refine ⟨c1, c2, hc, hv, hc1, ?_⟩
  intro w hw
  rw [Bool.eq_false_iff]
  intro hws
  have hws' : w.slug = slug := by simpa using hws
  have hvs : v.slug = slug := by simpa using hv
  rw [hc] at hnd
  simp only [List.map_append, List.map_cons] at hnd
  have := (List.nodup_cons.mp (List.nodup_middle.mp hnd)).1
  exact this (List.mem_append_right _
    (List.mem_map.mpr ⟨w, hw, by rw [hws', hvs]⟩))

/-- `find?` ignores a non-matching appended element. -/
theorem find?_snoc_not (p : α → Bool) (l : List α) (x : α) (hx : p x = false) :
    (l ++ [x]).find? p = l.find? p := by
  induction l with
  | nil => simp [List.find?_cons, hx]
  | cons a l ih => by_cases ha : p a <;> simp [List.find?_cons, ha, ih]

/-- Replacing a middle element with one scoring the same keeps `find?`
succeeding or failing together. -/
theorem find?_isSome_middle (p : α → Bool) (l1 l2 : List α) (x y : α)
    (hxy : p x = p y) :
    ((l1 ++ x :: l2).find? p).isSome = ((l1 ++ y :: l2).find? p).isSome := by
  induction l1 with
  | nil =>
    cases hx : p x with
    | true =>
      have hy : p y = true := by rw [← hxy, hx]
      simp [List.find?_cons, hx, hy]
    | false =>
      have hy : p y = false := by rw [← hxy, hx]
      simp [List.find?_cons, hx, hy]
  | cons a l ih =>
    by_cases ha : p a
    · simp [List.cons_append, List.find?_cons, ha]
    · have ha' : p a = false := Bool.eq_false_iff.mpr ha
      simp only [List.cons_append, List.find?_cons, ha']
      exact ih

/-- One guarded device import on a well-keyed catalog whose target vendor
exists: the catalog stays well-keyed, vendor existence is untouched, every
other `(vendor, model)` key reads as before, the imported key now reads
`appliedRow` of its old value, and exactly one of the two device counters
advances according to whether the key already existed. -/
theorem importDeviceChecked_step (slug vendorName model : String) (doc : DeviceDoc)
    (c : Catalog) (stats : Stats)
    (hwk : wellKeyed c)
    (hv : (findVendor c slug).isSome = true)
    (hm : doc.model_number = some model) :
    ∃ c' stats',
      importDeviceChecked slug vendorName doc (c, stats) = (c', stats') ∧
      wellKeyed c' ∧
      (∀ s, (findVendor c' s).isSome = (findVendor c s).isSome) ∧
      (∀ s m, ¬(s = slug ∧ m = model) → findDevice c' s m = findDevice c s m) ∧
      findDevice c' slug model = some (appliedRow doc model (findDevice c slug model)) ∧
      stats'.vendors_created = stats.vendors_created ∧
      stats'.vendors_updated = stats.vendors_updated ∧
      stats'.errors = stats.errors ∧
      ((findDevice c slug model).isSome = true →
        stats' = { stats with devices_updated := stats.devices_updated + 1 }) ∧
      ((findDevice c slug model).isSome = false →
        stats' = { stats with devices_created := stats.devices_created + 1 }) := by
  cases hfv : findVendor c slug with
  | none => rw [hfv] at hv; simp at hv
  | some v =>
  obtain ⟨c1, c2, hc, hvs, h1, h2⟩ := findVendor_split c slug v hwk.1 hfv
  subst hc
  have hdevnd := hwk.2 v (List.mem_append_right _ (List.mem_cons_self _ _))
  have hvslug : v.slug = slug := by simpa using hvs
  cases hfd : v.devices.find? (fun y => y.model_number == model) with
  | none =>
    have hnone : ∀ y ∈ v.devices, (y.model_number == model) = false := by
      intro y hy
      have := List.find?_eq_none.mp hfd y hy
      simpa using this
    have hfdc : findDevice (c1 ++ v :: c2) slug model = none := by
      rw [findDevice_decomp slug model c1 c2 v h1 hvs]
      exact hfd
    have happ : (appliedRow doc model none).model_number = model := by
      rw [appliedRow_model]
    have hres := importDevice_result_fresh slug model doc stats c1 c2 v h1 hvs hm hnone
    refine ⟨c1 ++ { v with devices := v.devices ++ [appliedRow doc model none] } :: c2,
      { stats with devices_created := stats.devices_created + 1 },
      ?_, ?_, ?_, ?_, ?_, rfl, rfl, rfl, ?_, ?_⟩
    · unfold importDeviceChecked
      rw [hres]
    · constructor
      · have hmapeq : ((c1 ++ { v with devices := v.devices ++ [appliedRow doc model none] } :: c2).map
            (fun w => w.slug)) = (c1 ++ v :: c2).map (fun w => w.slug) := by
          simp
        rw [hmapeq]
        exact hwk.1
      · intro w hw
        rcases List.mem_append.mp hw with hw | hw
        · exact hwk.2 w (List.mem_append_left _ hw)
        · rcases List.mem_cons.mp hw with rfl | hw
          · simp only [List.map_append, List.map_cons, List.map_nil]
            rw [List.nodup_append]
            refine ⟨hdevnd, by simp, ?_⟩
            intro a ha hb
            rw [happ] at hb
            simp only [List.mem_singleton] at hb
            subst hb
            obtain ⟨y, hy, hya⟩ := List.mem_map.mp ha
            have := hnone y hy
            rw [hya] at this
            simp at this
          · exact hwk.2 w (List.mem_append_right _ (List.mem_cons_of_mem _ hw))
    · intro s
      unfold findVendor
      exact find?_isSome_middle _ c1 c2 _ _ rfl
    · intro s m hne
      by_cases hs : (v.slug == s) = true
      · have hsv : s = slug := by
          have : v.slug = s := by simpa using hs
          rw [← this, hvslug]
        subst hsv
        have hmne : ¬m = model := fun hmm => hne ⟨rfl, hmm⟩
        unfold findDevice findVendor
        rw [find?_append_none _ _ _ h1, find?_append_none _ _ _ h1]
        simp only [List.find?_cons, hs]
        show (v.devices ++ [appliedRow doc model none]).find? (fun d => d.model_number == m) =
          v.devices.find? (fun d => d.model_number == m)
        apply find?_snoc_not
        rw [happ]
        simpa using fun h => hmne h.symm
      · have hs' : (v.slug == s) = false := Bool.eq_false_iff.mpr hs
        unfold findDevice findVendor
        rw [find?_middle_not _ c1 c2 _ v hs' hs']
    · rw [hfdc]
      rw [findDevice_decomp slug model c1 c2
        { v with devices := v.devices ++ [appliedRow doc model none] } h1 hvs]
      rw [find?_append_none _ _ _ hnone]
      simp [List.find?_cons, happ]
    · intro h
      rw [hfdc] at h
      simp at h
    · intro _
      rfl
  | some d =>
    obtain ⟨d1, d2, hdev, hd, hd1⟩ := find?_split _ _ _ hfd
    have hdm : d.model_number = model := by simpa using hd
    have hfdc : findDevice (c1 ++ v :: c2) slug model = some d := by
      rw [findDevice_decomp slug model c1 c2 v h1 hvs]
      exact hfd
    have happ : (appliedRow doc model (some d)).model_number = d.model_number := by
      rw [appliedRow_model]
    have hres := importDevice_result_existing slug model doc stats c1 c2 v d1 d2 d
      h1 hvs hm hdev hd1 hd
    refine ⟨c1 ++ { v with devices := d1 ++ appliedRow doc model (some d) :: d2 } :: c2,
      { stats with devices_updated := stats.devices_updated + 1 },
      ?_, ?_, ?_, ?_, ?_, rfl, rfl, rfl, ?_, ?_⟩
    · unfold importDeviceChecked
      rw [hres]
    · constructor
      · have hmapeq : ((c1 ++ { v with devices := d1 ++ appliedRow doc model (some d) :: d2 } :: c2).map
            (fun w => w.slug)) = (c1 ++ v :: c2).map (fun w => w.slug) := by
          simp
        rw [hmapeq]
        exact hwk.1
      · intro w hw
        rcases List.mem_append.mp hw with hw | hw
        · exact hwk.2 w (List.mem_append_left _ hw)
        · rcases List.mem_cons.mp hw with rfl | hw
          · have hmapeq : ((d1 ++ appliedRow doc model (some d) :: d2).map
                (fun y => y.model_number)) = ((d1 ++ d :: d2).map (fun y => y.model_number)) := by
              simp [happ]
            simp only [hmapeq]
            rw [← hdev]
            exact hdevnd
          · exact hwk.2 w (List.mem_append_right _ (List.mem_cons_of_mem _ hw))
    · intro s
      unfold findVendor
      exact find?_isSome_middle _ c1 c2 _ _ rfl
    · intro s m hne
      by_cases hs : (v.slug == s) = true
      · have hsv : s = slug := by
          have : v.slug = s := by simpa using hs
          rw [← this, hvslug]
        subst hsv
        have hmne : ¬m = model := fun hmm => hne ⟨rfl, hmm⟩
        unfold findDevice findVendor
        rw [find?_append_none _ _ _ h1, find?_append_none _ _ _ h1]
        simp only [List.find?_cons, hs]
        show (d1 ++ appliedRow doc model (some d) :: d2).find? (fun y => y.model_number == m) =
          (v.devices).find? (fun y => y.model_number == m)
        rw [hdev]
        apply find?_middle_not
        · rw [happ, hdm]
          simpa using fun h => hmne h.symm
        · rw [hdm]
          simpa using fun h => hmne h.symm
      · have hs' : (v.slug == s) = false := Bool.eq_false_iff.mpr hs
        unfold findDevice findVendor
        rw [find?_middle_not _ c1 c2 _ v hs' hs']
    · rw [hfdc]
      rw [findDevice_decomp slug model c1 c2
        { v with devices := d1 ++ appliedRow doc model (some d) :: d2 } h1 hvs]
      rw [find?_append_none _ _ _ hd1]
      have : ((appliedRow doc model (some d)).model_number == model) = true := by
        rw [happ, hdm]
        simp
      simp [List.find?_cons, this]
    · intro _
      rfl
    · intro h
      rw [hfdc] at h
      simp at h

/-- The per-device loop over one file's documents, on a well-keyed catalog
whose target vendor exists: well-keyedness and the vendor table are
preserved, errors and vendor counters are untouched, device-key existence is
monotone, every processed document's key exists afterwards, keys outside the
file are untouched, keys that all pre-exist make the run pure updates, and
with duplicate-free models each document's key ends at `appliedRow` of some
previous value. -/
theorem importDocs_facts (slug vendorName : String) :
    ∀ (docs : List DeviceDoc) (c : Catalog) (stats : Stats),
    wellKeyed c →
    (findVendor c slug).isSome = true →
    (∀ doc ∈ docs, doc.model_number.isSome = true) →
    ∃ c' stats',
      docs.foldl (fun st doc => importDeviceChecked slug vendorName doc st) (c, stats) = (c', stats') ∧
      wellKeyed c' ∧
      (∀ s, (findVendor c' s).isSome = (findVendor c s).isSome) ∧
      stats'.vendors_created = stats.vendors_created ∧
      stats'.vendors_updated = stats.vendors_updated ∧
      stats'.errors = stats.errors ∧
      (∀ s mdl, (findDevice c s mdl).isSome = true → (findDevice c' s mdl).isSome = true) ∧
      (∀ doc ∈ docs, ∀ mdl, doc.model_number = some mdl →
        (findDevice c' slug mdl).isSome = true) ∧
      (∀ s mdl, ¬(s = slug ∧ some mdl ∈ docs.map (fun doc => doc.model_number)) →
        findDevice c' s mdl = findDevice c s mdl) ∧
      ((∀ doc ∈ docs, ∀ mdl, doc.model_number = some mdl →
          (findDevice c slug mdl).isSome = true) →
        stats'.devices_created = stats.devices_created ∧
        stats'.devices_updated = stats.devices_updated + docs.length) ∧
      ((docs.map (fun doc => doc.model_number)).Nodup →
        ∀ doc ∈ docs, ∀ mdl, doc.model_number = some mdl →
        ∃ old, findDevice c' slug mdl = some (appliedRow doc mdl old)) := by
  intro docs
  induction docs with
  | nil =>
    intro c stats hwk hv _
    exact ⟨c, stats, rfl, hwk, fun s => rfl, rfl, rfl, rfl,
      fun s mdl h => h, by simp, fun s mdl _ => rfl,
      fun _ => ⟨rfl, by simp⟩, by simp⟩
  | cons doc docs ih =>
    intro c stats hwk hv hms
    have hmdoc := hms doc (List.mem_cons_self _ _)
    cases hmm : doc.model_number with
    | none => rw [hmm] at hmdoc; simp at hmdoc
    | some model =>
    obtain ⟨cm, statsm, hstep, hwkm, hfv_eq, hframe, hown, hvc, hvu, herr, hupd, hcre⟩ :=
      importDeviceChecked_step slug vendorName model doc c stats hwk hv hmm
    have hmono : ∀ s mdl, (findDevice c s mdl).isSome = true →
        (findDevice cm s mdl).isSome = true := by
      intro s mdl h
      by_cases hkey : s = slug ∧ mdl = model
      · rcases hkey with ⟨rfl, rfl⟩
        rw [hown]
        rfl
      · rw [hframe s mdl hkey]
        exact h
    have hvm : (findVendor cm slug).isSome = true := by
      rw [hfv_eq]
      exact hv
    obtain ⟨c', stats', hfold, hwk', hfv', hvc', hvu', herr', hmono', hest', hframe', hcnt', hchar'⟩ :=
      ih cm statsm hwkm hvm (fun d hd => hms d (List.mem_cons_of_mem _ hd))
    refine ⟨c', stats', ?_, hwk', ?_, hvc'.trans hvc, hvu'.trans hvu, herr'.trans herr,
      ?_, ?_, ?_, ?_, ?_⟩
    · simp only [List.foldl_cons]
      rw [hstep]
      exact hfold
    · intro s
      exact (hfv' s).trans (hfv_eq s)
    · intro s mdl h
      exact hmono' s mdl (hmono s mdl h)
    · intro doc' hdoc' mdl hmdl
      rcases List.mem_cons.mp hdoc' with rfl | htail
      · have : mdl = model := by
          rw [hmm] at hmdl
          simpa using hmdl.symm
        subst this
        refine hmono' slug mdl ?_
        rw [hown]
        rfl
      · exact hest' doc' htail mdl hmdl
    · intro s mdl hn
      have hn1 : ¬(s = slug ∧ some mdl ∈ docs.map (fun d => d.model_number)) := by
        rintro ⟨hs, hin⟩
        exact hn ⟨hs, by simp only [List.map_cons, List.mem_cons]; right; exact hin⟩
      have hn2 : ¬(s = slug ∧ mdl = model) := by
        rintro ⟨hs, rfl⟩
        exact hn ⟨hs, by simp [hmm]⟩
      exact (hframe' s mdl hn1).trans (hframe s mdl hn2)
    · intro hex
      have hhead : (findDevice c slug model).isSome = true :=
        hex doc (List.mem_cons_self _ _) model hmm
      have hstatsm := hupd hhead
      have htail : ∀ d ∈ docs, ∀ mdl, d.model_number = some mdl →
          (findDevice cm slug mdl).isSome = true := by
        intro d hd mdl hmdl
        exact hmono slug mdl (hex d (List.mem_cons_of_mem _ hd) mdl hmdl)
      obtain ⟨hc1, hc2⟩ := hcnt' htail
      constructor
      · rw [hc1, hstatsm]
      · rw [hc2, hstatsm]
        simp only [List.length_cons]
        omega
    · intro hnd doc' hdoc' mdl hmdl
      have hnd2 := hnd
      rw [List.map_cons] at hnd2
      have hhd := (List.nodup_cons.mp hnd2).1
      have htl := (List.nodup_cons.mp hnd2).2
      rcases List.mem_cons.mp hdoc' with rfl | htail
      · have hemdl : mdl = model := by
          rw [hmm] at hmdl
          simpa using hmdl.symm
        subst hemdl
        have hnotin : ¬(slug = slug ∧ some mdl ∈ docs.map (fun d => d.model_number)) := by
          rintro ⟨-, hin⟩
          apply hhd
          rw [hmm]
          exact hin
        refine ⟨findDevice c slug mdl, ?_⟩
        rw [hframe' slug mdl hnotin, hown]
      · exact hchar' htl doc' htail mdl hmdl


/-- `any` succeeds exactly when `find?` returns something. -/
theorem any_iff_find?_isSome (p : α → Bool) (l : List α) :
    l.any p = (l.find? p).isSome := by
  induction l with
  | nil => rfl
  | cons a l ih => by_cases ha : p a <;> simp [List.find?_cons, List.any_cons, ha, ih]

/-- `find?` keeps its verdict across an appended suffix once it succeeded. -/
theorem find?_append_some (p : α → Bool) (l1 l2 : List α) (y : α)
    (h : l1.find? p = some y) : (l1 ++ l2).find? p = some y := by
  induction l1 with
  | nil => simp at h
  | cons a l ih =>
    by_cases ha : p a
    · simp only [List.cons_append, List.find?_cons, ha] at h ⊢
      exact h
    · have ha' : p a = false := Bool.eq_false_iff.mpr ha
      simp only [List.cons_append, List.find?_cons, ha'] at h ⊢
      exact ih h

/-- `get_or_create` on the vendor table: the catalog stays well-keyed, the
requested slug exists afterwards, vendor existence is monotone, and every
device key reads exactly as before. -/
theorem getOrCreateVendor_facts (slug name : String) (c : Catalog)
    (hwk : wellKeyed c) :
    ∃ c' created, getOrCreateVendor slug name c = (c', created) ∧
      wellKeyed c' ∧
      (findVendor c' slug).isSome = true ∧
      (∀ s, (findVendor c s).isSome = true → (findVendor c' s).isSome = true) ∧
      (∀ s mdl, findDevice c' s mdl = findDevice c s mdl) := by
  by_cases hany : (c.any (fun v => v.slug == slug)) = true
  · refine ⟨c, false, ?_, hwk, ?_, fun s h => h, fun s mdl => rfl⟩
    · unfold getOrCreateVendor
      rw [if_pos hany]
    · unfold findVendor
      rw [← any_iff_find?_isSome]
      exact hany
  · have hfresh : ∀ v ∈ c, (v.slug == slug) = false := by
      intro v hv
      rw [Bool.eq_false_iff]
      intro hvs
      exact hany (List.any_eq_true.mpr ⟨v, hv, hvs⟩)
    refine ⟨c ++ [{ name := name, slug := slug, devices := [] }], true, ?_, ?_, ?_, ?_, ?_⟩
    · unfold getOrCreateVendor
      rw [if_neg hany]
    · constructor
      · simp only [List.map_append, List.map_cons, List.map_nil]
        rw [List.nodup_append]
        refine ⟨hwk.1, by simp, ?_⟩
        intro a ha hb
        simp only [List.mem_singleton] at hb
        subst hb
        obtain ⟨w, hw, hws⟩ := List.mem_map.mp ha
        have := hfresh w hw
        rw [hws] at this
        simp at this
      · intro v hv
        rcases List.mem_append.mp hv with hv | hv
        · exact hwk.2 v hv
        · rcases List.mem_cons.mp hv with rfl | hv
          · simp
          · simp at hv
    · unfold findVendor
      rw [find?_append_none _ _ _ hfresh]
      simp [List.find?_cons]
    · intro s h
      unfold findVendor at h ⊢
      cases hfv : c.find? (fun v => v.slug == s) with
      | none => rw [hfv] at h; simp at h
      | some y => rw [find?_append_some _ _ _ _ hfv]; rfl
    · intro s mdl
      unfold findDevice findVendor
      cases hfv : c.find? (fun v => v.slug == s) with
      | some y => rw [find?_append_some _ _ _ _ hfv]
      | none =>
        have hall : ∀ w ∈ c, (w.slug == s) = false := by
          intro w hw
          have := List.find?_eq_none.mp hfv w hw
          simpa using this
        rw [find?_append_none _ _ _ hall]
        by_cases hss : ((({ name := name, slug := slug, devices := [] } : VendorRow)).slug == s) = true
        · simp only [List.find?_cons, hss]
          simp [List.find?_nil]
        · have hss' := Bool.eq_false_iff.mpr hss
          simp only [List.find?_cons, hss']
          simp [List.find?_nil]

/-- One manifest-entry step on a well-keyed catalog, for an entry whose file
exists and lists complete device documents: well-keyedness holds after,
errors are untouched, vendor and device-key existence are monotone, the
entry's vendor and all its device keys exist afterwards, keys outside the
entry read as before, pre-existing keys make the device loop pure updates,
and with duplicate-free models every document's key ends at `appliedRow` of
some previous value. -/
theorem processVendorEntry_facts (dp : String) (files : List (String × FileDoc))
    (e : ManifestEntry) (c : Catalog) (stats : Stats)
    (hwk : wellKeyed c)
    (docs : List DeviceDoc)
    (hfile : (files.find? (fun kv => kv.1 == e.file)).map (fun kv => kv.2) =
      some { device_types := some docs })
    (hms : ∀ doc ∈ docs, doc.model_number.isSome = true) :
    ∃ c' stats',
      processVendorEntry dp files e (c, stats) = (c', stats') ∧
      wellKeyed c' ∧
      stats'.errors = stats.errors ∧
      (∀ s, (findVendor c s).isSome = true → (findVendor c' s).isSome = true) ∧
      (findVendor c' (slugify e.name)).isSome = true ∧
      (∀ s mdl, (findDevice c s mdl).isSome = true → (findDevice c' s mdl).isSome = true) ∧
      (∀ doc ∈ docs, ∀ mdl, doc.model_number = some mdl →
        (findDevice c' (slugify e.name) mdl).isSome = true) ∧
      (∀ s mdl, ¬(s = slugify e.name ∧ some mdl ∈ docs.map (fun d => d.model_number)) →
        findDevice c' s mdl = findDevice c s mdl) ∧
      ((∀ doc ∈ docs, ∀ mdl, doc.model_number = some mdl →
          (findDevice c (slugify e.name) mdl).isSome = true) →
        stats'.devices_created = stats.devices_created ∧
        stats'.devices_updated = stats.devices_updated + docs.length) ∧
      ((docs.map (fun d => d.model_number)).Nodup →
        ∀ doc ∈ docs, ∀ mdl, doc.model_number = some mdl →
        ∃ old, findDevice c' (slugify e.name) mdl = some (appliedRow doc mdl old)) := by
  obtain ⟨cv, created, hgoc, hwkv, hvslug, hvmono, hdev_eq⟩ :=
    getOrCreateVendor_facts (slugify e.name) e.name c hwk
  set statsv := if created = true then { stats with vendors_created := stats.vendors_created + 1 }
    else { stats with vendors_updated := stats.vendors_updated + 1 } with hstatsv
  have hsv_err : statsv.errors = stats.errors := by
    rw [hstatsv]; cases created <;> simp
  have hsv_dc : statsv.devices_created = stats.devices_created := by
    rw [hstatsv]; cases created <;> simp
  have hsv_du : statsv.devices_updated = stats.devices_updated := by
    rw [hstatsv]; cases created <;> simp
  obtain ⟨c', stats', hfold, hwk', hfv', hvc', hvu', herr', hmono', hest', hframe', hcnt', hchar'⟩ :=
    importDocs_facts (slugify e.name) e.name docs cv statsv hwkv hvslug hms
  refine ⟨c', stats', ?_, hwk', herr'.trans hsv_err, ?_, ?_, ?_, ?_, ?_, ?_, ?_⟩
  · unfold processVendorEntry
    rw [hfile]
    simp only
    rw [hgoc]
    simp only
    cases created <;> simpa using hfold
  · intro s h
    have : (findVendor cv s).isSome = true := hvmono s h
    rw [← hfv' s] at this
    exact this
  · have := hvslug
    rw [← hfv' (slugify e.name)] at this
    exact this
  · intro s mdl h
    apply hmono' s mdl
    rw [hdev_eq]
    exact h
  · exact hest'
  · intro s mdl hn
    rw [hframe' s mdl hn, hdev_eq]
  · intro hex
    have hex' : ∀ doc ∈ docs, ∀ mdl, doc.model_number = some mdl →
        (findDevice cv (slugify e.name) mdl).isSome = true := by
      intro d hd mdl hmdl
      rw [hdev_eq]
      exact hex d hd mdl hmdl
    obtain ⟨h1, h2⟩ := hcnt' hex'
    exact ⟨h1.trans hsv_dc, by rw [h2, hsv_du]⟩
  · exact hchar'

/-- `filterMap` with a never-failing function keeps the length. -/
theorem length_filterMap_of_all (f : α → Option β) (l : List α)
    (h : ∀ x ∈ l, (f x).isSome = true) : (l.filterMap f).length = l.length := by
  induction l with
  | nil => rfl
  | cons a l ih =>
    have ha := h a (List.mem_cons_self _ _)
    cases hfa : f a with
    | none => rw [hfa] at ha; simp at ha
    | some b =>
      rw [List.filterMap_cons, hfa]
      simp only [List.length_cons]
      rw [ih (fun x hx => h x (List.mem_cons_of_mem a hx))]

/-- `fileDocs` of an entry whose file resolves. -/
theorem fileDocs_eq (files : List (String × FileDoc)) (e : ManifestEntry)
    (docs : List DeviceDoc)
    (hfile : (files.find? (fun kv => kv.1 == e.file)).map (fun kv => kv.2) =
      some { device_types := some docs }) :
    fileDocs files e = docs := by
  unfold fileDocs
  rw [hfile]
  rfl

/-- A described device key belongs to its entry's key list. -/
theorem mem_entryKeys_of_doc (files : List (String × FileDoc)) (e : ManifestEntry)
    (doc : DeviceDoc) (mdl : String)
    (hdoc : doc ∈ fileDocs files e) (hmdl : doc.model_number = some mdl) :
    (slugify e.name, mdl) ∈ entryKeys files e := by
  unfold entryKeys
  exact List.mem_filterMap.mpr ⟨doc, hdoc, by rw [hmdl]; rfl⟩

/-- Duplicate-free entry keys force duplicate-free model numbers. -/
theorem nodup_models_of_nodup_keys (slug : String) :
    ∀ (docs : List DeviceDoc),
    (∀ doc ∈ docs, doc.model_number.isSome = true) →
    (docs.filterMap (fun doc => doc.model_number.map (fun mdl => (slug, mdl)))).Nodup →
    (docs.map (fun d => d.model_number)).Nodup := by
  intro docs
  induction docs with
  | nil => intro _ _; simp
  | cons d ds ih =>
    intro hms hnd
    have hd := hms d (List.mem_cons_self _ _)
    cases hdm : d.model_number with
    | none => rw [hdm] at hd; simp at hd
    | some mdl =>
      rw [List.filterMap_cons, hdm] at hnd
      simp only [Option.map_some'] at hnd
      obtain ⟨hnotin, hndtail⟩ := List.nodup_cons.mp hnd
      rw [List.map_cons, hdm]
      rw [List.nodup_cons]
      constructor
      · intro hin
        obtain ⟨d', hd', hdm'⟩ := List.mem_map.mp hin
        exact hnotin (List.mem_filterMap.mpr ⟨d', hd', by rw [hdm']; rfl⟩)
      · exact ih (fun x hx => hms x (List.mem_cons_of_mem d hx)) hndtail

/-- The manifest loop of `import_from_yaml` on a well-keyed catalog, for a
complete manifest/file pair: the catalog stays well-keyed, errors are
untouched, vendor/device existence is monotone, every described key exists
afterwards, undescribed keys read as before, a run whose described keys all
pre-exist is a pure-update run (`devices_created` unchanged,
`devices_updated` advanced by the device count), and with duplicate-free keys
every described document's key ends at `appliedRow` of some previous value. -/
theorem importEntries_facts (dp : String) (files : List (String × FileDoc)) :
    ∀ (entries : List ManifestEntry) (c : Catalog) (stats : Stats),
    wellKeyed c →
    importWF files entries →
    ∃ c' stats',
      entries.foldl (fun st e => processVendorEntry dp files e st) (c, stats) = (c', stats') ∧
      wellKeyed c' ∧
      stats'.errors = stats.errors ∧
      (∀ s, (findVendor c s).isSome = true → (findVendor c' s).isSome = true) ∧
      (∀ s mdl, (findDevice c s mdl).isSome = true → (findDevice c' s mdl).isSome = true) ∧
      (∀ e ∈ entries, ∀ doc ∈ fileDocs files e, ∀ mdl, doc.model_number = some mdl →
        (findDevice c' (slugify e.name) mdl).isSome = true) ∧
      (∀ s mdl, (s, mdl) ∉ importKeys files entries →
        findDevice c' s mdl = findDevice c s mdl) ∧
      ((∀ e ∈ entries, ∀ doc ∈ fileDocs files e, ∀ mdl, doc.model_number = some mdl →
          (findDevice c (slugify e.name) mdl).isSome = true) →
        stats'.devices_created = stats.devices_created ∧
        stats'.devices_updated = stats.devices_updated + (importKeys files entries).length) ∧
      ((importKeys files entries).Nodup →
        ∀ e ∈ entries, ∀ doc ∈ fileDocs files e, ∀ mdl, doc.model_number = some mdl →
        ∃ old, findDevice c' (slugify e.name) mdl = some (appliedRow doc mdl old)) := by
  intro entries
  induction entries with
  | nil =>
    intro c stats hwk _
    exact ⟨c, stats, rfl, hwk, rfl, fun s h => h, fun s mdl h => h, by simp,
      fun s mdl _ => rfl, fun _ => ⟨rfl, by simp [importKeys]⟩, by simp⟩
  | cons e rest ih =>
    intro c stats hwk hwf
    obtain ⟨docs, hfile, hms⟩ := hwf e (List.mem_cons_self _ _)
    have hfd := fileDocs_eq files e docs hfile
    obtain ⟨c1, stats1, hproc, hwk1, herr1, hvmono1, hvslug1, hmono1, hest1, hframe1, hcnt1, hchar1⟩ :=
      processVendorEntry_facts dp files e c stats hwk docs hfile hms
    obtain ⟨c', stats', hfold, hwk', herr', hvmono', hmono', hest', hframe', hcnt', hchar'⟩ :=
      ih c1 stats1 hwk1 (fun e' he' => hwf e' (List.mem_cons_of_mem e he'))
    have hkeys_cons : importKeys files (e :: rest) = entryKeys files e ++ importKeys files rest := by
      unfold importKeys
      simp
    refine ⟨c', stats', ?_, hwk', herr'.trans herr1, ?_, ?_, ?_, ?_, ?_, ?_⟩
    · simp only [List.foldl_cons]
      rw [hproc]
      exact hfold
    · intro s h
      exact hvmono' s (hvmono1 s h)
    · intro s mdl h
      exact hmono' s mdl (hmono1 s mdl h)
    · intro e' he' doc hdoc mdl hmdl
      rcases List.mem_cons.mp he' with rfl | htail
      · rw [hfd] at hdoc
        exact hmono' _ mdl (hest1 doc hdoc mdl hmdl)
      · exact hest' e' htail doc hdoc mdl hmdl
    · intro s mdl hn
      rw [hkeys_cons] at hn
      have hn1 : (s, mdl) ∉ entryKeys files e := fun h => hn (List.mem_append_left _ h)
      have hn2 : (s, mdl) ∉ importKeys files rest := fun h => hn (List.mem_append_right _ h)
      rw [hframe' s mdl hn2]
      apply hframe1 s mdl
      rintro ⟨rfl, hin⟩
      obtain ⟨doc, hdoc, hdm⟩ := List.mem_map.mp hin
      exact hn1 (mem_entryKeys_of_doc files e doc mdl (hfd ▸ hdoc) hdm)
    · intro hex
      have hexe : ∀ doc ∈ docs, ∀ mdl, doc.model_number = some mdl →
          (findDevice c (slugify e.name) mdl).isSome = true := by
        intro doc hdoc mdl hmdl
        exact hex e (List.mem_cons_self _ _) doc (hfd ▸ hdoc) mdl hmdl
      obtain ⟨h1, h2⟩ := hcnt1 hexe
      have hexr : ∀ e' ∈ rest, ∀ doc ∈ fileDocs files e', ∀ mdl,
          doc.model_number = some mdl →
          (findDevice c1 (slugify e'.name) mdl).isSome = true := by
        intro e' he' doc hdoc mdl hmdl
        exact hmono1 _ mdl (hex e' (List.mem_cons_of_mem e he') doc hdoc mdl hmdl)
      obtain ⟨h1', h2'⟩ := hcnt' hexr
      constructor
      · rw [h1', h1]
      · rw [h2', h2, hkeys_cons]
        have hlen : (entryKeys files e).length = docs.length := by
          unfold entryKeys
          rw [hfd]
          apply length_filterMap_of_all
          intro doc hdoc
          have := hms doc hdoc
          cases hdm : doc.model_number with
          | none => rw [hdm] at this; simp at this
          | some mdl => simp [hdm]
        rw [List.length_append, hlen]
        omega
    · intro hnd e' he' doc hdoc mdl hmdl
      rw [hkeys_cons] at hnd
      rw [List.nodup_append] at hnd
      obtain ⟨hnd1, hnd2, hdisj⟩ := hnd
      rcases List.mem_cons.mp he' with rfl | htail
      · have hmodels : (docs.map (fun d => d.model_number)).Nodup := by
          apply nodup_models_of_nodup_keys _ docs hms
          unfold entryKeys at hnd1
          rw [hfd] at hnd1
          exact hnd1
        have hdocs : doc ∈ docs := by
          have h := hdoc
          rw [hfd] at h
          exact h
        obtain ⟨old, hold⟩ := hchar1 hmodels doc hdocs mdl hmdl
        refine ⟨old, ?_⟩
        rw [hframe' _ mdl
          (fun hin => hdisj (mem_entryKeys_of_doc files _ doc mdl hdoc hmdl) hin), hold]
      · exact hchar' hnd2 e' htail doc hdoc mdl hmdl

/-- C8: importing the same complete manifest/file pair twice (keys pairwise
distinct, N devices described) makes the second run a pure update —
`devices_created = 0` and `devices_updated = N` — because the upsert is keyed
by `(vendor, model_number)`; and after the second run every modbus device's
register rows are exactly the file's `register_definitions`, fully replacing
whatever the first run wrote. -/
theorem c8_reimport_pure_update (fs : ImportFS) (manifest : ManifestDoc)
    (files : List (String × FileDoc)) (c0 : Catalog)
    (hman : fs.manifest = some manifest)
    (hfiles : fs.files = some files)
    (hwk : wellKeyed c0)
    (hwf : importWF files manifest.vendors)
    (hnd : (importKeys files manifest.vendors).Nodup) :
    ∃ c1 stats1 c2 stats2,
      importFromYaml fs false c0 = (c1, .ok stats1) ∧
      importFromYaml fs false c1 = (c2, .ok stats2) ∧
      stats2.devices_created = 0 ∧
      stats2.devices_updated = (importKeys files manifest.vendors).length ∧
      (∀ e ∈ manifest.vendors, ∀ doc ∈ fileDocs files e, ∀ mdl,
        doc.model_number = some mdl →
        (doc.technology_config.getD ({} : TechConfigDoc)).technology.getD "" = "modbus" →
        ∃ d', findDevice c2 (slugify e.name) mdl = some d' ∧
          d'.modbus_config.map (fun mb => mb.registers) =
            some (((doc.technology_config.getD
              ({} : TechConfigDoc)).register_definitions.getD []).map importedRegister)) := by
  obtain ⟨c1, stats1, hfold1, hwk1, _, _, _, hest1, _, _, _⟩ :=
    importEntries_facts fs.devicesPath files manifest.vendors c0 ({} : Stats) hwk hwf
  obtain ⟨c2, stats2, hfold2, _, _, _, _, _, _, hcnt2, hchar2⟩ :=
    importEntries_facts fs.devicesPath files manifest.vendors c1 ({} : Stats) hwk1 hwf
  obtain ⟨hdc2, hdu2⟩ := hcnt2 hest1
  refine ⟨c1, stats1, c2, stats2, ?_, ?_, by simpa using hdc2, by simpa using hdu2, ?_⟩
  · unfold importFromYaml
    rw [hman, hfiles]
    dsimp only
    simp only [Bool.false_eq_true, if_false]
    rw [hfold1]
  · unfold importFromYaml
    rw [hman, hfiles]
    dsimp only
    simp only [Bool.false_eq_true, if_false]
    rw [hfold2]
  · intro e he doc hdoc mdl hmdl htech
    obtain ⟨old, hold⟩ := hchar2 hnd e he doc hdoc mdl hmdl
    refine ⟨appliedRow doc mdl old, hold, ?_⟩
    have hmb : (appliedRow doc mdl old).modbus_config = some
        { function := (doc.technology_config.getD ({} : TechConfigDoc)).function.getD ""
          byte_order := (doc.technology_config.getD ({} : TechConfigDoc)).byte_order.getD ""
          word_order := (doc.technology_config.getD ({} : TechConfigDoc)).word_order.getD ""
          registers := ((doc.technology_config.getD
            ({} : TechConfigDoc)).register_definitions.getD []).map importedRegister } := by
      cases old <;> (simp only [appliedRow]; rw [appliedTrans_modbus _ _ htech])
    rw [hmb]
    rfl

/-- Witness for `c8_reimport_pure_update`: the one-vendor one-device sample
pair imported twice into an empty catalog. -/
theorem c8_reimport_pure_update_witness :
    ∃ c1 stats1 c2 stats2,
      importFromYaml sampleFS false [] = (c1, .ok stats1) ∧
      importFromYaml sampleFS false c1 = (c2, .ok stats2) ∧
      stats2.devices_created = 0 ∧
      stats2.devices_updated = (importKeys sampleFiles sampleManifest.vendors).length ∧
      (∀ e ∈ sampleManifest.vendors, ∀ doc ∈ fileDocs sampleFiles e, ∀ mdl,
        doc.model_number = some mdl →
        (doc.technology_config.getD ({} : TechConfigDoc)).technology.getD "" = "modbus" →
        ∃ d', findDevice c2 (slugify e.name) mdl = some d' ∧
          d'.modbus_config.map (fun mb => mb.registers) =
            some (((doc.technology_config.getD
              ({} : TechConfigDoc)).register_definitions.getD []).map importedRegister)) :=
  c8_reimport_pure_update sampleFS sampleManifest sampleFiles [] rfl rfl
    (by decide)
    (by
      intro e he
      simp only [sampleManifest] at he
      rw [List.mem_singleton] at he
      subst he
      exact ⟨[sampleModbusDoc], by decide, by decide⟩)
    (by decide)

/-- C1, counterexample to the claim as stated: a catalog whose only device is
flagged `technology = "modbus"` but owns no `ModbusConfig` row.  Export emits
only `{technology: modbus}`; re-importing into an empty catalog then creates
a default `ModbusConfig` row, so the technology-config rows of the
re-imported catalog are not identical to the original's (a row exists where
none did). -/
theorem c1_roundtrip_counterexample :
    ((importFromYaml
        { manifestPath := "/data/manifest.yaml", devicesPath := "/data/devices"
          manifest := some (exportToYaml none [orphanTechVendor]).manifest
          files := some (exportToYaml none [orphanTechVendor]).files }
        false []).1.map (fun v => v.devices.map (fun d => d.modbus_config.isSome))) =
      [[true]] ∧
    ([orphanTechVendor].map (fun v => v.devices.map (fun d => d.modbus_config.isSome))) =
      [[false]] ∧
    catalogProjs (importFromYaml
        { manifestPath := "/data/manifest.yaml", devicesPath := "/data/devices"
          manifest := some (exportToYaml none [orphanTechVendor]).manifest
          files := some (exportToYaml none [orphanTechVendor]).files }
        false []).1 ≠ catalogProjs [orphanTechVendor] := by
  refine ⟨?_, ?_, ?_⟩ <;> decide

/-- The exporter's per-vendor loop in closed form: one file and one manifest
entry per vendor that owns devices, in catalog order. -/
theorem exportVendors_eq (c : Catalog) :
    (exportVendors c).1 = (c.filter (fun v => !v.devices.isEmpty)).map
      (fun v => (v.slug ++ ".yaml",
        ({ device_types := some (v.devices.map (exportDevice v.name)) } : FileDoc))) ∧
    (exportVendors c).2.1 = (c.filter (fun v => !v.devices.isEmpty)).map
      (fun v => ({ name := v.name, file := v.slug ++ ".yaml" } : ManifestEntry)) := by
  induction c with
  | nil => exact ⟨rfl, rfl⟩
  | cons v vs ih =>
    by_cases hv : v.devices.isEmpty
    · unfold exportVendors
      rw [if_pos hv]
      simpa [List.filter_cons, hv] using ih
    · have hv' : v.devices.isEmpty = false := Bool.eq_false_iff.mpr hv
      unfold exportVendors
      rw [if_neg hv]
      simp only [List.filter_cons, hv', Bool.not_false, if_true]
      exact ⟨by simp [ih.1], by simp [ih.2]⟩

/-- Appending the same suffix keeps strings apart. -/
theorem string_append_cancel (s1 s2 t : String) (h : s1 ++ t = s2 ++ t) : s1 = s2 := by
  have hd := congrArg String.data h
  simp only [String.data_append] at hd
  exact String.ext (List.append_cancel_right hd)

/-- Looking a vendor's file up among the exported files keyed by
`<slug>.yaml`, with duplicate-free slugs. -/
theorem find?_mapped_file (F : VendorRow → FileDoc) :
    ∀ (vs : List VendorRow) (v : VendorRow),
    ((vs.map (fun w => w.slug)).Nodup) → v ∈ vs →
    (((vs.map (fun w => (w.slug ++ ".yaml", F w))).find?
      (fun kv => kv.1 == v.slug ++ ".yaml")).map (fun kv => kv.2)) = some (F v) := by
  intro vs
  induction vs with
  | nil => intro v _ hv; simp at hv
  | cons w ws ih =>
    intro v hnd hv
    obtain ⟨hnotin, hndtail⟩ := List.nodup_cons.mp hnd
    rw [List.map_cons]
    rcases List.mem_cons.mp hv with rfl | hv
    · rw [List.find?_cons_of_pos _ (by simp)]
      rfl
    · have hne : (w.slug ++ ".yaml" == v.slug ++ ".yaml") = false := by
        rw [Bool.eq_false_iff]
        intro hbeq
        have heq : w.slug ++ ".yaml" = v.slug ++ ".yaml" := by simpa using hbeq
        apply hnotin
        show w.slug ∈ List.map (fun w => w.slug) ws
        rw [string_append_cancel w.slug v.slug ".yaml" heq]
        exact List.mem_map.mpr ⟨v, hv, rfl⟩
      simp only [List.find?_cons, hne]
      exact ih v hndtail hv

/-- Importing a freshly created vendor's exported device documents, in order:
each document creates its device, so the vendor's device list becomes the
mapped `appliedRow` list, in file order. -/
theorem importExportedDevices (slug vendorName origName : String) :
    ∀ (ds : List DeviceRow) (c1 : Catalog) (v : VendorRow) (stats : Stats),
    (∀ w ∈ c1, (w.slug == slug) = false) →
    ((v.slug == slug) = true) →
    ((ds.map (fun d => d.model_number)).Nodup) →
    (∀ d ∈ ds, ∀ y ∈ v.devices, (y.model_number == d.model_number) = false) →
    ∃ stats',
      (ds.map (fun d => exportDevice origName d)).foldl
        (fun st doc => importDeviceChecked slug vendorName doc st) (c1 ++ [v], stats) =
      (c1 ++ [{ v with devices := v.devices ++
                  ds.map (fun d => appliedRow (exportDevice origName d) d.model_number none) }],
        stats') := by
  intro ds
  induction ds with
  | nil =>
    intro c1 v stats _ _ _ _
    exact ⟨stats, by simp⟩
  | cons d rest ih =>
    intro c1 v stats hfresh hslug hnd hnone
    have hstep := importDevice_result_fresh slug d.model_number (exportDevice origName d)
      stats c1 [] v hfresh hslug rfl (hnone d (List.mem_cons_self _ _))
    have hndc : (d.model_number :: rest.map (fun d => d.model_number)).Nodup := by
      simpa using hnd
    obtain ⟨hmnotin, hndtail⟩ := List.nodup_cons.mp hndc
    have happ : (appliedRow (exportDevice origName d) d.model_number none).model_number =
        d.model_number := by
      rw [appliedRow_model]
    have hfr : ∀ d' ∈ rest,
        ∀ y ∈ v.devices ++ [appliedRow (exportDevice origName d) d.model_number none],
        (y.model_number == d'.model_number) = false := by
      intro d' hd' y hy
      rcases List.mem_append.mp hy with hy | hy
      · exact hnone d' (List.mem_cons_of_mem _ hd') y hy
      · rcases List.mem_cons.mp hy with rfl | hy
        · rw [Bool.eq_false_iff]
          intro hbeq
          have hdd : d.model_number = d'.model_number := by
            rw [← happ]
            simpa using hbeq
          exact hmnotin (hdd ▸ List.mem_map.mpr ⟨d', hd', rfl⟩)
        · simp at hy
    obtain ⟨stats', hrest⟩ := ih c1
      { v with devices := v.devices ++ [appliedRow (exportDevice origName d) d.model_number none] }
      { stats with devices_created := stats.devices_created + 1 }
      hfresh hslug hndtail hfr
    refine ⟨stats', ?_⟩
    rw [List.map_cons, List.foldl_cons]
    have hchecked : importDeviceChecked slug vendorName (exportDevice origName d)
        (c1 ++ [v], stats) =
        (c1 ++ [{ v with devices := v.devices ++
            [appliedRow (exportDevice origName d) d.model_number none] }],
         { stats with devices_created := stats.devices_created + 1 }) := by
      unfold importDeviceChecked
      rw [hstep]
    rw [hchecked, hrest]
    simp

/-- The manifest loop over exported vendors, into a catalog that contains
none of their slugs yet: every vendor is created and filled with exactly its
re-imported devices, in order. -/
theorem roundtripVendors (dp : String) (files : List (String × FileDoc)) :
    ∀ (vs : List VendorRow) (acc : Catalog) (stats : Stats),
    (∀ v ∈ vs, ((files.find? (fun kv => kv.1 == v.slug ++ ".yaml")).map (fun kv => kv.2)) =
      some { device_types := some (v.devices.map (exportDevice v.name)) }) →
    (∀ v ∈ vs, (v.devices.map (fun d => d.model_number)).Nodup) →
    ((vs.map (fun v => slugify v.name)).Nodup) →
    (∀ v ∈ vs, ∀ w ∈ acc, (w.slug == slugify v.name) = false) →
    ∃ stats',
      ((vs.map (fun v => ({ name := v.name, file := v.slug ++ ".yaml" } : ManifestEntry))).foldl
        (fun st e => processVendorEntry dp files e st) (acc, stats)) =
      (acc ++ vs.map importedVendor, stats') := by
  intro vs
  induction vs with
  | nil =>
    intro acc stats _ _ _ _
    exact ⟨stats, by simp⟩
  | cons v rest ih =>
    intro acc stats hfile hnd hslugs hfreshacc
    have hslugs2 : (slugify v.name :: rest.map (fun v => slugify v.name)).Nodup := by
      simpa only [List.map_cons] using hslugs
    obtain ⟨hslughead, hslugtail⟩ := List.nodup_cons.mp hslugs2
    have hany : (acc.any (fun w => w.slug == slugify v.name)) = false := by
      rw [Bool.eq_false_iff]
      intro hb
      obtain ⟨w, hw, hws⟩ := List.any_eq_true.mp hb
      have := hfreshacc v (List.mem_cons_self _ _) w hw
      rw [hws] at this
      cases this
    have hgoc : getOrCreateVendor (slugify v.name) v.name acc =
        (acc ++ [{ name := v.name, slug := slugify v.name, devices := [] }], true) := by
      unfold getOrCreateVendor
      rw [if_neg (by rw [hany]; exact Bool.false_ne_true)]
    have hproc : processVendorEntry dp files
        ({ name := v.name, file := v.slug ++ ".yaml" } : ManifestEntry) (acc, stats) =
        (v.devices.map (exportDevice v.name)).foldl
          (fun st doc => importDeviceChecked (slugify v.name) v.name doc st)
          (acc ++ [{ name := v.name, slug := slugify v.name, devices := [] }],
           { stats with vendors_created := stats.vendors_created + 1 }) := by
      unfold processVendorEntry
      rw [hfile v (List.mem_cons_self _ _)]
      dsimp only
      rw [hgoc]
      rfl
    obtain ⟨stats2, hdocs⟩ := importExportedDevices (slugify v.name) v.name v.name
      v.devices acc { name := v.name, slug := slugify v.name, devices := [] } 
      { stats with vendors_created := stats.vendors_created + 1 }
      (fun w hw => hfreshacc v (List.mem_cons_self _ _) w hw)
      (by simp)
      (hnd v (List.mem_cons_self _ _))
      (by intro d _ y hy; simp at hy)
    have hfreshacc' : ∀ v' ∈ rest,
        ∀ w ∈ acc ++ [importedVendor v], (w.slug == slugify v'.name) = false := by
      intro v' hv' w hw
      rcases List.mem_append.mp hw with hw | hw
      · exact hfreshacc v' (List.mem_cons_of_mem _ hv') w hw
      · rcases List.mem_cons.mp hw with rfl | hw
        · rw [Bool.eq_false_iff]
          intro hb
          apply hslughead
          have : slugify v.name = slugify v'.name := by simpa [importedVendor] using hb
          rw [this]
          exact List.mem_map.mpr ⟨v', hv', rfl⟩
        · simp at hw
    obtain ⟨stats', hrest⟩ := ih (acc ++ [importedVendor v]) stats2
      (fun v' hv' => hfile v' (List.mem_cons_of_mem _ hv'))
      (fun v' hv' => hnd v' (List.mem_cons_of_mem _ hv'))
      hslugtail hfreshacc'
    refine ⟨stats', ?_⟩
    rw [List.map_cons, List.foldl_cons]
    rw [hproc, hdocs]
    have hiv : ({ name := v.name, slug := slugify v.name, devices := [] } : VendorRow).devices ++
        v.devices.map (fun d => appliedRow (exportDevice v.name d) d.model_number none) =
        (importedVendor v).devices := by
      simp [importedVendor]
    rw [show (acc ++ [{ ({ name := v.name, slug := slugify v.name, devices := [] } : VendorRow) with
        devices := ({ name := v.name, slug := slugify v.name, devices := [] } : VendorRow).devices ++
          v.devices.map (fun d => appliedRow (exportDevice v.name d) d.model_number none) }]) =
      acc ++ [importedVendor v] from by simp [importedVendor]]
    rw [hrest]
    simp

/-- The exporter always emits the `technology` key verbatim. -/
theorem exportTechConfig_technology (d : DeviceRow) :
    (exportTechConfig d).technology = some d.technology := by
  unfold exportTechConfig
  dsimp only
  repeat' split
  all_goals rfl

/-- The config tail leaves the remaining `DeviceType` scalars alone. -/
theorem appliedTrans_scalars (doc : DeviceDoc) (d0 : DeviceRow) :
    (appliedTrans doc d0).name = d0.name ∧
    (appliedTrans doc d0).device_type = d0.device_type ∧
    (appliedTrans doc d0).description = d0.description := by
  unfold appliedTrans
  dsimp only
  repeat' split
  all_goals simp [importProcessorRow, importControlRow, importModbusRow,
    importLorawanRow, importWmbusRow]

/-- Off the modbus branch, the `ModbusConfig` row is untouched. -/
theorem appliedTrans_keep_modbus (doc : DeviceDoc) (d0 : DeviceRow)
    (h : (doc.technology_config.getD ({} : TechConfigDoc)).technology.getD "" ≠ "modbus") :
    (appliedTrans doc d0).modbus_config = d0.modbus_config := by
  unfold appliedTrans
  dsimp only
  rw [if_neg h]
  repeat' split
  all_goals simp [importProcessorRow, importControlRow, importLorawanRow, importWmbusRow]

/-- Off the lorawan branch, the `LoRaWANConfig` row is untouched. -/
theorem appliedTrans_keep_lorawan (doc : DeviceDoc) (d0 : DeviceRow)
    (h : (doc.technology_config.getD ({} : TechConfigDoc)).technology.getD "" ≠ "lorawan") :
    (appliedTrans doc d0).lorawan_config = d0.lorawan_config := by
  unfold appliedTrans
  dsimp only
  repeat' split
  all_goals simp [importProcessorRow, importControlRow, importModbusRow, importWmbusRow]

/-- Off the wmbus branch, the `WMBusConfig` row is untouched. -/
theorem appliedTrans_keep_wmbus (doc : DeviceDoc) (d0 : DeviceRow)
    (h : (doc.technology_config.getD ({} : TechConfigDoc)).technology.getD "" ≠ "wmbus") :
    (appliedTrans doc d0).wmbus_config = d0.wmbus_config := by
  unfold appliedTrans
  dsimp only
  repeat' split
  all_goals simp [importProcessorRow, importControlRow, importModbusRow, importLorawanRow]

/-- On the lorawan branch, the `LoRaWANConfig` row is rewritten to the
document's values. -/
theorem appliedTrans_lorawan (doc : DeviceDoc) (d0 : DeviceRow)
    (h : (doc.technology_config.getD ({} : TechConfigDoc)).technology.getD "" = "lorawan") :
    (appliedTrans doc d0).lorawan_config = some
      { device_class := (doc.technology_config.getD ({} : TechConfigDoc)).device_class.getD ""
        downlink_f_port := (doc.technology_config.getD ({} : TechConfigDoc)).downlink_f_port } := by
  unfold appliedTrans
  dsimp only
  repeat' split
  all_goals simp_all [importProcessorRow, importControlRow, importModbusRow,
    importLorawanRow, importWmbusRow]

/-- On the wmbus branch, the `WMBusConfig` row is rewritten to the document's
values. -/
theorem appliedTrans_wmbus (doc : DeviceDoc) (d0 : DeviceRow)
    (h : (doc.technology_config.getD ({} : TechConfigDoc)).technology.getD "" = "wmbus") :
    (appliedTrans doc d0).wmbus_config = some
      { manufacturer_code := (doc.technology_config.getD ({} : TechConfigDoc)).manufacturer_code.getD ""
        wmbus_device_type := (doc.technology_config.getD ({} : TechConfigDoc)).wmbus_device_type
        data_record_mapping := (doc.technology_config.getD ({} : TechConfigDoc)).data_record_mapping.getD []
        encryption_required := (doc.technology_config.getD ({} : TechConfigDoc)).encryption_required.getD false
        shared_encryption_key := (doc.technology_config.getD ({} : TechConfigDoc)).shared_encryption_key.getD "" } := by
  unfold appliedTrans
  dsimp only
  repeat' split
  all_goals simp_all [importProcessorRow, importControlRow, importModbusRow,
    importLorawanRow, importWmbusRow]

/-- Importing the exported form of one register row gives the row back. -/
theorem importedRegister_roundtrip (r : RegisterRow) :
    importedRegister
      { field := some { name := some r.field_name, unit := some r.field_unit }
        scale := some r.scale
        offset := some r.offset
        address := some r.address
        data_type := some r.data_type } = r := rfl

/-- Importing the exported form of a register list gives the list back. -/
theorem map_export_import_registers (l : List RegisterRow) :
    ((l.map (fun reg =>
      ({ field := some { name := some reg.field_name, unit := some reg.field_unit }
         scale := some reg.scale
         offset := some reg.offset
         address := some reg.address
         data_type := some reg.data_type } : RegisterDoc))).map importedRegister) = l := by
  induction l with
  | nil => rfl
  | cons a t ih => simp only [List.map_cons, importedRegister_roundtrip, ih]

/-- The previous lemma with the two maps fused into one composite map. -/
theorem map_export_import_registers_comp (l : List RegisterRow) :
    List.map (importedRegister ∘ fun reg =>
      ({ field := some { name := some reg.field_name, unit := some reg.field_unit }
         scale := some reg.scale
         offset := some reg.offset
         address := some reg.address
         data_type := some reg.data_type } : RegisterDoc)) l = l := by
  rw [← List.map_map]
  exact map_export_import_registers l

/-- On a modbus device with a `ModbusConfig` row, the exported document fields
recover the row's columns (empty strings round through omitted keys) and the
registers recover the query result. -/
theorem exportTechConfig_modbus_fields (d : DeviceRow) (m : ModbusRow)
    (ht : d.technology = "modbus") (hm : d.modbus_config = some m) :
    (exportTechConfig d).function.getD "" = m.function ∧
    (exportTechConfig d).byte_order.getD "" = m.byte_order ∧
    (exportTechConfig d).word_order.getD "" = m.word_order ∧
    ((exportTechConfig d).register_definitions.getD []).map importedRegister
      = queryRegisters m.registers := by
  unfold exportTechConfig
  dsimp only
  repeat' split
  all_goals refine ⟨?_, ?_, ?_, ?_⟩
  all_goals simp_all [map_export_import_registers, map_export_import_registers_comp]

/-- On a lorawan device with a `LoRaWANConfig` row, the exported document
fields recover the row's columns. -/
theorem exportTechConfig_lorawan_fields (d : DeviceRow) (l : LoRaWANRow)
    (ht : d.technology = "lorawan") (hl : d.lorawan_config = some l) :
    (exportTechConfig d).device_class.getD "" = l.device_class ∧
    (exportTechConfig d).downlink_f_port = l.downlink_f_port := by
  unfold exportTechConfig
  dsimp only
  repeat' split
  all_goals refine ⟨?_, ?_⟩
  all_goals simp_all [Option.not_isSome_iff_eq_none]

/-- On a wmbus device with a `WMBusConfig` row, the exported document fields
recover the row's columns. -/
theorem exportTechConfig_wmbus_fields (d : DeviceRow) (w : WMBusRow)
    (ht : d.technology = "wmbus") (hw : d.wmbus_config = some w) :
    (exportTechConfig d).manufacturer_code.getD "" = w.manufacturer_code ∧
    (exportTechConfig d).wmbus_device_type = w.wmbus_device_type ∧
    (exportTechConfig d).data_record_mapping.getD [] = w.data_record_mapping ∧
    (exportTechConfig d).encryption_required.getD false = w.encryption_required ∧
    (exportTechConfig d).shared_encryption_key.getD "" = w.shared_encryption_key := by
  unfold exportTechConfig
  dsimp only
  repeat' split
  all_goals refine ⟨?_, ?_, ?_, ?_, ?_⟩
  all_goals simp_all

/-- Exporting one device and importing the document as a fresh row reproduces
the device's projection, provided the device carries exactly the config row
its technology selects. -/
theorem roundtrip_device_proj (n : String) (d : DeviceRow)
    (hcm : configsMatch d = true) :
    deviceProj n (appliedRow (exportDevice n d) d.model_number none) = deviceProj n d := by
  have hrow : appliedRow (exportDevice n d) d.model_number none
      = appliedTrans (exportDevice n d) (createdRow (exportDevice n d) d.model_number) := rfl
  have hgetD : (exportDevice n d).technology_config.getD ({} : TechConfigDoc)
      = exportTechConfig d := rfl
  have htech : ((exportDevice n d).technology_config.getD ({} : TechConfigDoc)).technology.getD ""
      = d.technology := by
    rw [hgetD, exportTechConfig_technology, Option.getD_some]
  obtain ⟨hname, hdt, hdesc⟩ :=
    appliedTrans_scalars (exportDevice n d) (createdRow (exportDevice n d) d.model_number)
  have hconf := hcm
  unfold configsMatch at hconf
  have hconfigs :
      (appliedTrans (exportDevice n d) (createdRow (exportDevice n d) d.model_number)).modbus_config.map modbusProj
        = d.modbus_config.map modbusProj ∧
      (appliedTrans (exportDevice n d) (createdRow (exportDevice n d) d.model_number)).lorawan_config
        = d.lorawan_config ∧
      (appliedTrans (exportDevice n d) (createdRow (exportDevice n d) d.model_number)).wmbus_config
        = d.wmbus_config := by
    by_cases h1 : d.technology = "modbus"
    · rw [if_pos h1] at hconf
      simp only [Bool.and_eq_true, Option.isSome_iff_exists, Option.isNone_iff_eq_none] at hconf
      obtain ⟨⟨⟨m, hm⟩, hln⟩, hwn⟩ := hconf
      obtain ⟨hf, hb, hw, hr⟩ := exportTechConfig_modbus_fields d m h1 hm
      refine ⟨?_, ?_, ?_⟩
      · rw [appliedTrans_modbus _ _ (htech.trans h1), hm]
        refine congrArg some ?_
        unfold modbusProj
        simp only [ModbusProj.mk.injEq, hgetD]
        refine ⟨hf, hb, hw, ?_⟩
        rw [hr]
        exact Multiset.coe_eq_coe.mpr (List.perm_insertionSort _ _)
      · rw [appliedTrans_keep_lorawan _ _ (by rw [htech, h1]; decide)]
        exact hln.symm
      · rw [appliedTrans_keep_wmbus _ _ (by rw [htech, h1]; decide)]
        exact hwn.symm
    · by_cases h2 : d.technology = "lorawan"
      · rw [if_neg h1, if_pos h2] at hconf
        simp only [Bool.and_eq_true, Option.isSome_iff_exists, Option.isNone_iff_eq_none] at hconf
        obtain ⟨⟨hmn, ⟨l, hl⟩⟩, hwn⟩ := hconf
        obtain ⟨hdc, hdp⟩ := exportTechConfig_lorawan_fields d l h2 hl
        refine ⟨?_, ?_, ?_⟩
        · rw [appliedTrans_keep_modbus _ _ (by rw [htech, h2]; decide), hmn]
          rfl
        · rw [appliedTrans_lorawan _ _ (htech.trans h2), hl]
          simp only [Option.some.injEq, hgetD]
          rw [hdc, hdp]
        · rw [appliedTrans_keep_wmbus _ _ (by rw [htech, h2]; decide)]
          exact hwn.symm
      · by_cases h3 : d.technology = "wmbus"
        · rw [if_neg h1, if_neg h2, if_pos h3] at hconf
          simp only [Bool.and_eq_true, Option.isSome_iff_exists, Option.isNone_iff_eq_none] at hconf
          obtain ⟨⟨hmn, hln⟩, ⟨w, hw⟩⟩ := hconf
          obtain ⟨h5, h6, h7, h8, h9⟩ := exportTechConfig_wmbus_fields d w h3 hw
          refine ⟨?_, ?_, ?_⟩
          · rw [appliedTrans_keep_modbus _ _ (by rw [htech, h3]; decide), hmn]
            rfl
          · rw [appliedTrans_keep_lorawan _ _ (by rw [htech, h3]; decide)]
            exact hln.symm
          · rw [appliedTrans_wmbus _ _ (htech.trans h3), hw]
            simp only [Option.some.injEq, hgetD]
            rw [h5, h6, h7, h8, h9]
        · rw [if_neg h1, if_neg h2, if_neg h3] at hconf
          simp only [Bool.and_eq_true, Option.isNone_iff_eq_none] at hconf
          obtain ⟨⟨hmn, hln⟩, hwn⟩ := hconf
          refine ⟨?_, ?_, ?_⟩
          · rw [appliedTrans_keep_modbus _ _ (by rw [htech]; exact h1), hmn]
            rfl
          · rw [appliedTrans_keep_lorawan _ _ (by rw [htech]; exact h2)]
            exact hln.symm
          · rw [appliedTrans_keep_wmbus _ _ (by rw [htech]; exact h3)]
            exact hwn.symm
  obtain ⟨hmb, hlw, hwm⟩ := hconfigs
  unfold deviceProj
  rw [hrow]
  simp only [DeviceProjection.mk.injEq]
  exact ⟨trivial, appliedTrans_model _ _, hname, hdt, (appliedTrans_technology _ _).trans htech,
    hdesc, hmb, hlw, hwm⟩

/-- `catalogProjs` unfolds one vendor at a time. -/
theorem catalogProjs_cons (v : VendorRow) (t : Catalog) :
    catalogProjs (v :: t) = v.devices.map (fun d => deviceProj v.name d) ++ catalogProjs t := rfl

/-- Vendors without devices contribute nothing, so the exporter's skip of
empty vendors loses no device projection. -/
theorem catalogProjs_filter_isEmpty (c : Catalog) :
    catalogProjs (c.filter (fun v => !v.devices.isEmpty)) = catalogProjs c := by
  induction c with
  | nil => rfl
  | cons v t ih =>
    rw [List.filter_cons]
    by_cases h : (!v.devices.isEmpty) = true
    · rw [if_pos h, catalogProjs_cons, catalogProjs_cons, ih]
    · rw [if_neg h, ih, catalogProjs_cons]
      have hd : v.devices = [] := by
        rw [← List.isEmpty_iff]
        simpa using h
      rw [hd]
      rfl

/-- Re-importing every exported vendor reproduces all device projections,
vendor by vendor. -/
theorem catalogProjs_imported (vs : List VendorRow)
    (hcm : ∀ v ∈ vs, ∀ d ∈ v.devices, configsMatch d = true) :
    catalogProjs (vs.map importedVendor) = catalogProjs vs := by
  induction vs with
  | nil => rfl
  | cons v t ih =>
    rw [List.map_cons, catalogProjs_cons, catalogProjs_cons,
      ih (fun w hw d hd => hcm w (List.mem_cons_of_mem _ hw) d hd)]
    congr 1
    show (v.devices.map (fun d => appliedRow (exportDevice v.name d) d.model_number none)).map
        (fun d => deviceProj v.name d) = v.devices.map (fun d => deviceProj v.name d)
    rw [List.map_map]
    apply List.map_congr_left
    intro d hd
    exact roundtrip_device_proj v.name d (hcm v (List.mem_cons_self _ _) d hd)

/-- C1 (amended): for catalogs whose device rows each carry exactly the config
row their technology selects — and whose keys are unique, with vendor names
slugifying apart — exporting everything to YAML and importing the manifest and
files into an empty catalog succeeds and reproduces every `DeviceType` row and
its technology-config rows (`ModbusConfig` with its `RegisterDefinition` rows
as a set, `LoRaWANConfig`, `WMBusConfig`). Without the config-row condition the
round trip can differ: a selected-but-missing config row is re-created with
default columns on import (see the counterexample). -/
theorem c1_amended_roundtrip (mp dp : String) (current : Option VersionInfo)
    (c : Catalog) (hwf : roundtripWF c) :
    ∃ c' stats,
      importFromYaml
        { manifestPath := mp, devicesPath := dp
          manifest := some (exportToYaml current c).manifest
          files := some (exportToYaml current c).files } false []
        = (c', .ok stats) ∧
      catalogProjs c' = catalogProjs c := by
  obtain ⟨hslugify, hslug, hmodels, hcm⟩ := hwf
  have hsub : (c.filter (fun v => !v.devices.isEmpty)).Sublist c := List.filter_sublist c
  rcases hex : exportVendors c with ⟨files0, entries0, nv, nd⟩
  have hfiles0 : files0 = (c.filter (fun v => !v.devices.isEmpty)).map
      (fun v => (v.slug ++ ".yaml",
        ({ device_types := some (v.devices.map (exportDevice v.name)) } : FileDoc))) := by
    have h := (exportVendors_eq c).1
    rw [hex] at h
    exact h
  have hentries0 : entries0 = (c.filter (fun v => !v.devices.isEmpty)).map
      (fun v => ({ name := v.name, file := v.slug ++ ".yaml" } : ManifestEntry)) := by
    have h := (exportVendors_eq c).2
    rw [hex] at h
    exact h
  have hman : (exportToYaml current c).manifest.vendors = entries0 := by
    unfold exportToYaml
    rw [hex]
  have hfs : (exportToYaml current c).files = files0 := by
    unfold exportToYaml
    rw [hex]
  have hslugsnd : ((c.filter (fun v => !v.devices.isEmpty)).map (fun w => w.slug)).Nodup :=
    hslug.sublist (hsub.map _)
  have hfile : ∀ v ∈ c.filter (fun v => !v.devices.isEmpty),
      ((files0.find? (fun kv => kv.1 == v.slug ++ ".yaml")).map (fun kv => kv.2)) =
        some { device_types := some (v.devices.map (exportDevice v.name)) } := by
    intro v hv
    rw [hfiles0]
    exact find?_mapped_file (fun v => { device_types := some (v.devices.map (exportDevice v.name)) })
      _ v hslugsnd hv
  obtain ⟨stats', hfold⟩ := roundtripVendors dp files0 (c.filter (fun v => !v.devices.isEmpty))
    [] {} hfile
    (fun v hv => hmodels v (hsub.subset hv))
    (hslugify.sublist (hsub.map _))
    (fun v _ w hw => absurd hw (List.not_mem_nil w))
  refine ⟨(c.filter (fun v => !v.devices.isEmpty)).map importedVendor, stats', ?_, ?_⟩
  · show (match ((exportToYaml current c).manifest.vendors.foldl
        (fun st e => processVendorEntry dp (exportToYaml current c).files e st)
        ([], ({} : Stats))) with
      | (c', stats) => (c', Except.ok stats)) =
      ((c.filter (fun v => !v.devices.isEmpty)).map importedVendor, Except.ok stats')
    rw [hman, hentries0, hfs, hfold]
    simp
  · rw [catalogProjs_imported _ (fun v hv d hd => hcm v (hsub.subset hv) d hd)]
    exact catalogProjs_filter_isEmpty c

/-- C1 amended theorem exercised on a concrete well-formed catalog. -/
theorem c1_amended_roundtrip_witness :
    roundtripWF [sampleVendor] ∧
    ∃ c' stats,
      importFromYaml
        { manifestPath := "/data/manifest.yaml", devicesPath := "/data/devices"
          manifest := some (exportToYaml none [sampleVendor]).manifest
          files := some (exportToYaml none [sampleVendor]).files } false []
        = (c', .ok stats) ∧
      catalogProjs c' = catalogProjs [sampleVendor] :=
  ⟨by decide, c1_amended_roundtrip "/data/manifest.yaml" "/data/devices" none [sampleVendor]
    (by decide)⟩
